import Mathlib

/-! # Verification of the identity-propagation and error-taxonomy core

Shallow embedding of `errcode/errcode.go`, `logger/common.go`, `jwt/jwt.go`,
`jwt/interceptor.go`, and `ParseUpdateMap` and `GetTimestamp` of
`stores/gdb/model/model.go`.

Conventions of the embedding:
* Go `uint32`, `int` and `int64` values are `Nat` / `Int`; where a range matters it
  is stated as an explicit predicate.
* A `*Err` is a non-nil reference and is compared by content.
* A Go `map` is an association list with distinct keys.
* A Go `error` value is `Option GoError`, `none` being `nil`.
* The libraries that `jwt/jwt.go` calls (JSON, base64, JWT signing and parsing) are a
  parameter `Library`; a `time.Time` is its Unix time in nanoseconds.
-/

namespace Errcode

/-! ## errcode/errcode.go -/

/-- Business error structure `Err`: `code uint32`, `httpCode int`, `msg string`. -/
structure Err where
  code : Nat
  httpCode : Int
  msg : String
deriving DecidableEq

/-- The value `http.StatusOK`. -/
def StatusOK : Int := 200

/-- The value `http.StatusUnauthorized`. -/
def StatusUnauthorized : Int := 401

/-- The value `http.StatusInternalServerError`. -/
def StatusInternalServerError : Int := 500

/-- Constant `CodeOK = http.StatusOK`. -/
def CodeOK : Nat := 200

/-- Constant `MsgOK`. -/
def MsgOK : String := "Successful"

/-- Constant `CodeCustom`. -/
def CodeCustom : Nat := 7000

/-- Constant `MsgCustom`. -/
def MsgCustom : String := "Custom error"

/-- Method `(*Err).Code`. -/
def Err.Code (e : Err) : Nat := e.code

/-- Method `(*Err).HTTPCode`. -/
def Err.HTTPCode (e : Err) : Int := e.httpCode

/-- Method `(*Err).Error`. -/
def Err.Error (e : Err) : String := e.msg

/-- Function `NewErr(code, msg, httpCode...)`: the variadic `httpCode` is a list, of
which only the first element is read. -/
def NewErr (code : Nat) (msg : String) (httpCode : List Int) : Err :=
  let hc := match httpCode with
    | [] => StatusOK
    | h :: _ => h
  { code := code, httpCode := hc, msg := msg }

def NoErr : Err := NewErr CodeOK MsgOK []
def ErrCustom : Err := NewErr CodeCustom MsgCustom []
def ErrUnexpected : Err :=
  NewErr 7777 "Network error, please try again later" [StatusInternalServerError]
def ErrTokenNotValidYet : Err := NewErr 9999 "Token illegal" [StatusUnauthorized]
def ErrInvalidUrl : Err := NewErr 10000 "URL is illegal" []
def ErrInvalidHeader : Err := NewErr 10001 "Invalid request header" []
def ErrInvalidParams : Err := NewErr 10002 "Parameter is illegal" []
def ErrTokenVerify : Err := NewErr 10003 "Token check error" [StatusUnauthorized]
def ErrTokenExpire : Err := NewErr 10004 "Expired token" [StatusUnauthorized]
def ErrUserLogin : Err := NewErr 10005 "User log out" [StatusUnauthorized]
def ErrUserPrivilegeChange : Err := NewErr 10006 "Permission changed" [StatusUnauthorized]
def ErrLockNotAcquire : Err := NewErr 10007 "Lock not released" []
def ErrLockAcquire : Err := NewErr 10008 "Lock acquisition error" []
def ErrLockNotRelease : Err := NewErr 10009 "Lock is not released" []
def ErrLockRelease : Err := NewErr 10010 "Lock released err" []
def ErrTWitterAddress : Err := NewErr 10011 "Twitter address illeage" []
def ErrDiscordAddress : Err := NewErr 10012 "Discord address illeage" []
def ErrAddress : Err := NewErr 10013 "Address illeage" []

/-- The state of the package variable `codeToErr`, a `map[uint32]*Err`. -/
abbrev Table := List (Nat × Err)

/-- Map read `codeToErr[code]` with its `ok` flag. -/
def Table.get (t : Table) (code : Nat) : Option Err := t.lookup code

/-- Initial value of the package variable `codeToErr`. -/
def codeToErr : Table :=
  [ (200, NoErr),
    (7000, ErrCustom),
    (7777, ErrUnexpected),
    (9999, ErrTokenNotValidYet),
    (10000, ErrInvalidUrl),
    (10001, ErrInvalidHeader),
    (10002, ErrInvalidParams),
    (10003, ErrTokenVerify),
    (10004, ErrTokenExpire),
    (10005, ErrUserLogin),
    (10006, ErrUserPrivilegeChange),
    (10007, ErrLockNotAcquire),
    (10008, ErrLockAcquire),
    (10009, ErrLockNotRelease),
    (10010, ErrLockRelease),
    (10011, ErrTWitterAddress),
    (10012, ErrDiscordAddress),
    (10013, ErrAddress) ]

/-- Function `SetCodeToErr(code, err)`: the table after the call and the returned
error (`none` is `nil`, `some m` is `errors.New(m)`). The write `codeToErr[code] = err`
happens only for a key that is absent, so it adds a binding. -/
def SetCodeToErr (t : Table) (code : Nat) (err : Err) : Table × Option String :=
  match t.get code with
  | some _ => (t, some "has exist")
  | none => ((code, err) :: t, none)

/-- A sequence of `SetCodeToErr` calls, run in order from table `t`. -/
def registerAll (t : Table) (calls : List (Nat × Err)) : Table :=
  calls.foldl (fun s c => (SetCodeToErr s c.1 c.2).1) t

/-- Function `NewCustomErr(msg, httpCode...)`. -/
def NewCustomErr (msg : String) (httpCode : List Int) : Err :=
  NewErr CodeCustom msg httpCode

/-- Function `ParseCode(code)`, reading table `t`. -/
def ParseCode (t : Table) (code : Nat) : Err :=
  match t.get code with
  | some e => e
  | none => ErrUnexpected

/-- A non-nil Go `error` value, by the dynamic types the code tells apart:
a business error (`*Err`, which has no `GRPCStatus` method), an error whose
`GRPCStatus()` gives a status with a code and a message, and any other error
(with the text of its `Error()`). -/
inductive GoError where
  | biz (e : Err)
  | status (code : Nat) (msg : String)
  | other (msg : String)
deriving DecidableEq

/-- The gRPC constant `codes.OK`. -/
def codesOK : Nat := 0

/-- The gRPC constant `codes.Unknown`. -/
def codesUnknown : Nat := 2

/-- The code and the message of the status that gRPC's `status.FromError` gives for a
non-nil error: the error's own status when it has one, else a status with code
`Unknown` and the error's text. -/
def statusFromError : GoError → Nat × String
  | .status c m => (c, m)
  | .biz e => (codesUnknown, e.Error)
  | .other m => (codesUnknown, m)

/-- Function `ParseErr(err)`, reading table `t`. -/
def ParseErr (t : Table) (err : Option GoError) : Err :=
  match err with
  | none => NoErr
  | some (.biz e) => e
  | some g =>
    let s := statusFromError g
    let c := s.1
    if c = CodeCustom then NewCustomErr s.2 [] else ParseCode t c

end Errcode

namespace Logger

open Errcode

/-! ## logger/common.go -/

/-- Function `DefaultErrorToCode(err)`: the type switch tries the `GRPCStatus`
interface first (answered by gRPC's `status.Code`), then `*errcode.Err`. -/
def DefaultErrorToCode (err : Option GoError) : Nat :=
  match err with
  | none => codesOK
  | some (.status c m) => (statusFromError (.status c m)).1
  | some (.biz e) => e.Code
  | some (.other _) => codesUnknown

/-- The gRPC function `status.Error(c, msg)`: nil for the code `OK`, else an error
carrying the status. -/
def statusError (c : Nat) (msg : String) : Option GoError :=
  if c = codesOK then none else some (.status c msg)

/-- A business error sent across an RPC boundary: the sender turns it into a status
error with code `DefaultErrorToCode(e)` and message `e.Error()`, the receiver, whose
table is `t`, classifies that error with `ParseErr`. -/
def acrossBoundary (t : Table) (e : Err) : Err :=
  ParseErr t (statusError (DefaultErrorToCode (some (.biz e))) e.Error)

end Logger

namespace Convert

/-! ## kit/convert (decimal conversion of integers) -/

/-- The decimal digit character of a digit value `d < 10`. -/
def digitChar (d : Nat) : Char := Char.ofNat (48 + d)

/-- The decimal digits of `n`, most significant first; `fuel` bounds the number of
digits and `n + 1` is always enough. -/
def natDigits : Nat → Nat → List Char
  | 0, _ => []
  | fuel + 1, n =>
    if n < 10 then [digitChar n] else natDigits fuel (n / 10) ++ [digitChar (n % 10)]

/-- The value of a decimal digit character. -/
def digitValue (c : Char) : Option Nat :=
  if 48 ≤ c.toNat ∧ c.toNat ≤ 57 then some (c.toNat - 48) else none

/-- Reads decimal digits onto the accumulator `acc`; `none` at a character that is
not a digit. -/
def parseDigits : List Char → Nat → Option Nat
  | [], acc => some acc
  | c :: cs, acc =>
    match digitValue c with
    | some d => parseDigits cs (10 * acc + d)
    | none => none

/-- Reads a decimal integer: an optional minus sign and at least one digit. -/
def parseInt : List Char → Option Int
  | [] => none
  | c :: ds =>
    if c = '-' then
      if ds.isEmpty then none else (parseDigits ds 0).map (fun n => -(n : Int))
    else
      (parseDigits (c :: ds) 0).map (fun n => (n : Int))

/-- The range of Go's `int64`. -/
def isInt64 (n : Int) : Prop := -9223372036854775808 ≤ n ∧ n ≤ 9223372036854775807

instance (n : Int) : Decidable (isInt64 n) := by unfold isInt64; infer_instance

/-- Modelled from the spec: `convert.ToString` of package `kit/convert`, which is not
among the sources. The spec fixes only that a numeric field is emitted as one string
value; the model is the decimal text of the integer (minus sign for a negative one,
no leading zeros). -/
def ToString (n : Int) : String :=
  match n with
  | Int.ofNat k => String.mk (natDigits (k + 1) k)
  | Int.negSucc k => String.mk ('-' :: natDigits (k + 2) (k + 1))

/-- Modelled from the spec: `convert.ToInt64` of package `kit/convert`, which is not
among the sources. The model reads the decimal text of an `int64`; since
deserialization never fails, any other text gives the zero value. -/
def ToInt64 (s : String) : Int :=
  match parseInt s.data with
  | some n => if isInt64 n then n else 0
  | none => 0

end Convert

namespace Jwt

/-! ## gRPC `metadata` (library behaviour used by jwt/interceptor.go) -/

/-- Go's `strings.ToLower`, on the ASCII letters. -/
def stringsToLower (s : String) : String := String.mk (s.data.map Char.toLower)

/-- The gRPC type `metadata.MD`, a `map[string][]string`: an association list with
distinct keys. A missing key reads as the empty (nil) slice. -/
abbrev MD := List (String × List String)

/-- Map read `md[k]`. -/
def MD.index (md : MD) (k : String) : List String := (md.lookup k).getD []

/-- Map write `md[k] = vs`. -/
def MD.set (md : MD) (k : String) (vs : List String) : MD :=
  (k, vs) :: md.filter (fun p => !(p.1 == k))

/-- Library method `md.Get(k)`: the values under the lower-cased key. -/
def MD.Get (md : MD) (k : String) : List String := md.index (stringsToLower k)

/-- Splits a flat `k1, v1, k2, v2, ...` argument list into pairs; `none` for an odd
number of strings, where the library panics. -/
def toPairs : List String → Option (List (String × String))
  | [] => some []
  | [_] => none
  | k :: v :: rest => (toPairs rest).map (fun ps => (k, v) :: ps)

/-- The library's loop `key := strings.ToLower(k); md[key] = append(md[key], v)` over
the pairs, in order. -/
def addPairs (ps : List (String × String)) (md : MD) : MD :=
  ps.foldl (fun m p => m.set (stringsToLower p.1) (m.index (stringsToLower p.1) ++ [p.2])) md

/-- Library function `metadata.Pairs(kv...)`; `none` is its panic on an odd number of
arguments. -/
def Pairs (kv : List String) : Option MD :=
  (toPairs kv).map (fun ps => addPairs ps [])

/-! ## jwt/interceptor.go -/

def TokenTypeAccess : String := "access"
def TokenTypeRefresh : String := "refresh"
def LoginTypeWallet : String := "wallet"
def LoginTypeEmail : String := "email"
def tokenTypeKey : String := "X-Token-Type"
def randomIdKey : String := "X-Random-Id"
def loginTypeKey : String := "X-Login-Type"
def userIdKey : String := "X-User-Id"
def roleIdKey : String := "X-Role-Id"

/-- Struct `Token`. `UserId` and the elements of `RoleIds` are `int64`; a nil and an
empty `RoleIds` slice are both the empty list. -/
structure Token where
  TokenType : String
  RandomId : String
  LoginType : String
  UserId : Int
  RoleIds : List Int
deriving DecidableEq

/-- The numeric fields of a token are in the range of `int64`. -/
def Token.isInt64 (t : Token) : Prop :=
  Convert.isInt64 t.UserId ∧ ∀ r ∈ t.RoleIds, Convert.isInt64 r

instance (t : Token) : Decidable t.isInt64 := by unfold Token.isInt64; infer_instance

/-- The zero value `var t Token`. -/
def Token.zero : Token :=
  { TokenType := "", RandomId := "", LoginType := "", UserId := 0, RoleIds := [] }

/-- Method `(*Token).Visit(fn)` on a non-nil receiver. The callback acts on a state
`σ` (what it captures) and returns a `bool` that `Visit` ignores. -/
def Token.Visit {σ : Type} (t : Token) (fn : String → String → σ → Bool × σ) (s : σ) : σ :=
  let s := (fn tokenTypeKey t.TokenType s).2
  let s := (fn randomIdKey t.RandomId s).2
  let s := (fn loginTypeKey t.LoginType s).2
  let s := (fn userIdKey (Convert.ToString t.UserId) s).2
  t.RoleIds.foldl (fun s roleId => (fn roleIdKey (Convert.ToString roleId) s).2) s

/-- The key/value pairs of a token in the order `Visit` presents them. -/
def Token.pairs (t : Token) : List (String × String) :=
  [(tokenTypeKey, t.TokenType), (randomIdKey, t.RandomId), (loginTypeKey, t.LoginType),
    (userIdKey, Convert.ToString t.UserId)] ++
  t.RoleIds.map (fun roleId => (roleIdKey, Convert.ToString roleId))

/-- A list of pairs as the flat list `k1, v1, k2, v2, ...`. -/
def flattenPairs : List (String × String) → List String
  | [] => []
  | p :: ps => p.1 :: p.2 :: flattenPairs ps

/-- The five metadata keys of the identity carrier. -/
def identityKeys : List String :=
  [tokenTypeKey, randomIdKey, loginTypeKey, userIdKey, roleIdKey]

/-- The callback `func(key, val string) bool { pairs = append(pairs, key, val); return true }`
of `wrapClientContext` and of the test, acting on `pairs`. -/
def collectPairs (key val : String) (pairs : List String) : Bool × List String :=
  (true, pairs ++ [key, val])

/-- Function `FromMD(md)`; `none` is the nil map, and the result is the returned
reference (`none` for nil) with the `ok` flag. -/
def FromMD (md : Option MD) : Option Token × Bool :=
  match md with
  | none => (none, false)
  | some md =>
    let t := Token.zero
    let t := match md.Get tokenTypeKey with
      | [] => t
      | v :: _ => { t with TokenType := v }
    let t := match md.Get randomIdKey with
      | [] => t
      | v :: _ => { t with RandomId := v }
    let t := match md.Get loginTypeKey with
      | [] => t
      | v :: _ => { t with LoginType := v }
    let t := match md.Get userIdKey with
      | [] => t
      | v :: _ => { t with UserId := Convert.ToInt64 v }
    let t := match md.Get roleIdKey with
      | [] => t
      | ris => { t with RoleIds := ris.foldl (fun roleIds ri => roleIds ++ [Convert.ToInt64 ri]) [] }
    (some t, true)

/-- What `ctx.Value(TokenKey)` holds: nothing, a `*Token` (possibly the nil
reference), or a value of another type. -/
inductive TokenValue where
  | absent
  | token (p : Option Token)
  | foreign
deriving DecidableEq

/-- A `context.Context`, by what the package reads from it: the value under
`TokenKey`, the incoming metadata as `metadata.FromIncomingContext` reports it and the
outgoing metadata as `metadata.FromOutgoingContext` reports it (`none` when there is
none). -/
structure Context where
  tokenValue : TokenValue
  incoming : Option MD
  outgoing : Option MD
deriving DecidableEq

/-- Library function `metadata.AppendToOutgoingContext(ctx, kv...)`: the pairs are
added after the outgoing metadata already in the context; `none` is its panic on an
odd number of strings. -/
def AppendToOutgoingContext (ctx : Context) (kv : List String) : Option Context :=
  (toPairs kv).map (fun ps => { ctx with outgoing := some (addPairs ps (ctx.outgoing.getD [])) })

/-- Library function `metadata.NewIncomingContext(ctx, md)`. -/
def NewIncomingContext (ctx : Context) (md : MD) : Context :=
  { ctx with incoming := some md }

/-- Function `WithToken(ctx, token)`. -/
def WithToken (ctx : Context) (token : Option Token) : Context :=
  { ctx with tokenValue := .token token }

/-- Function `FromContext(ctx)`. -/
def FromContext (ctx : Context) : Option Token × Bool :=
  match ctx.tokenValue with
  | .token p => (p, true)
  | _ => (none, false)

/-- Function `wrapServerContext(ctx)`. -/
def wrapServerContext (ctx : Context) : Context :=
  match ctx.incoming with
  | none => ctx
  | some md =>
    match FromMD (some md) with
    | (_, false) => ctx
    | (token, true) => { ctx with tokenValue := .token token }

/-- Function `wrapClientContext(ctx)`; `none` is a panic (the nil dereference in
`Visit` on a nil `*Token`, or the library's panic on an odd pair list). -/
def wrapClientContext (ctx : Context) : Option Context :=
  match ctx.tokenValue with
  | .token p =>
    match p with
    | none => none
    | some token => AppendToOutgoingContext ctx (token.Visit collectPairs [])
  | _ => some ctx

/-- The peer's context once the outgoing metadata of the client context has been
delivered to it as its incoming metadata. -/
def deliver (client peer : Context) : Context :=
  match client.outgoing with
  | some md => NewIncomingContext peer md
  | none => peer

/-! ## jwt/jwt.go -/

/-- Go's `time.Second` in nanoseconds. -/
def Second : Int := 1000000000

/-- Go's `time.Duration.Seconds`: `float64(d / Second) + float64(d % Second) / 1e9`
with truncated division. The `float64` value is taken as the exact rational:
rounding to nearest keeps the sign of each term and of the sum, which is all the
comparison with zero in `NewJWT` reads. -/
def Seconds (d : Int) : ℚ :=
  let sec := Int.tdiv d Second
  let nsec := Int.tmod d Second
  (sec : ℚ) + (nsec : ℚ) / 1000000000

/-- Struct `Config`; `ExpirationTime` is a `time.Duration`, an `int64` count of
nanoseconds. -/
structure Config where
  Issuer : String
  SecretKey : String
  ExpirationTime : Int
deriving DecidableEq

/-- Struct `JWT`, holding its configuration. -/
structure JWT where
  c : Config
deriving DecidableEq

/-- Function `NewJWT(c)`; `none` is the nil `*Config`, `Except.error m` is the return
`(nil, errors.New(m))` and `Except.ok j` the return `(j, nil)`. -/
def NewJWT (c : Option Config) : Except String JWT :=
  match c with
  | none => .error "jwt: illegal jwt configure"
  | some c =>
    if c.Issuer = "" ∨ c.SecretKey = "" ∨ Seconds c.ExpirationTime ≤ 0 then
      .error "jwt: illegal jwt configure"
    else
      .ok { c := c }

/-- Constant `PrivatePayloadName`. -/
def PrivatePayloadName : String := "x_user_info"

/-- A `time.Time` is taken by its Unix time in nanoseconds; this is its `Unix()`, the
whole seconds since the epoch (rounded down). -/
def unixSeconds (t : Int) : Int := t / 1000000000

/-- A value stored in a `jwt.MapClaims`: a string, a number, or something else. -/
inductive ClaimValue where
  | str (s : String)
  | num (n : Int)
  | other
deriving DecidableEq

/-- The library type `jwt.MapClaims`, a `map[string]interface{}`. -/
abbrev MapClaims := List (String × ClaimValue)

/-- The flags of the library's `jwt.ValidationError` (golang-jwt v4). -/
def ValidationErrorMalformed : Nat := 1
def ValidationErrorUnverifiable : Nat := 2
def ValidationErrorSignatureInvalid : Nat := 4
def ValidationErrorAudience : Nat := 8
def ValidationErrorExpired : Nat := 16
def ValidationErrorIssuedAt : Nat := 32
def ValidationErrorIssuer : Nat := 64
def ValidationErrorNotValidYet : Nat := 128
def ValidationErrorId : Nat := 256
def ValidationErrorClaimsInvalid : Nat := 512

/-- What `jwt.Parse` returns, as far as `ParseToken` reads it: an error that is a
`*jwt.ValidationError` with its flag set `Errors`, any other error, or no error and a
token with its claims (`none` when they are not a `jwt.MapClaims`) and `Valid` flag. -/
inductive ParseOutcome where
  | validationError (errors : Nat)
  | otherError
  | token (claims : Option MapClaims) (valid : Bool)
deriving DecidableEq

/-- The library functions that `CreateToken` and `ParseToken` call, for a payload type
`P`; byte slices are strings. `Marshal` is `json.Marshal`, `Unmarshal data out` is
`json.Unmarshal(data, out)` giving the new content of `out`, `EncodeToString` and
`DecodeString` are those of `base64.StdEncoding`, `SignedString claims key` is
`jwt.NewWithClaims(jwt.SigningMethodHS256, claims).SignedString(key)` and
`Parse tokenStr key now` is `jwt.Parse(tokenStr, jwtKeyFunc(key))` run when the
library's clock reads `now` (Unix seconds). -/
structure Library (P : Type) where
  Marshal : P → Except String String
  Unmarshal : String → P → Except String P
  EncodeToString : String → String
  DecodeString : String → Except String String
  SignedString : MapClaims → String → Except String String
  Parse : String → String → Int → ParseOutcome

/-- The library's `MapClaims.Valid` (golang-jwt v4) at clock reading `now`, as the
flag set it reports: `exp` must be after `now`, `iat` and `nbf` not after `now`; a
claim that is absent or is the number 0 passes, one that is not a number fails. -/
def claimsFlags (claims : MapClaims) (now : Int) : Nat :=
  (match claims.lookup "exp" with
    | none => 0
    | some (.num exp) =>
      if exp = 0 then 0 else if now < exp then 0 else ValidationErrorExpired
    | some _ => ValidationErrorExpired) |||
  (match claims.lookup "iat" with
    | none => 0
    | some (.num iat) =>
      if iat = 0 then 0 else if iat ≤ now then 0 else ValidationErrorIssuedAt
    | some _ => ValidationErrorIssuedAt) |||
  (match claims.lookup "nbf" with
    | none => 0
    | some (.num nbf) =>
      if nbf = 0 then 0 else if nbf ≤ now then 0 else ValidationErrorNotValidYet
    | some _ => ValidationErrorNotValidYet)

/-- The flag set of `claimsFlags` for claims with the numbers `exp`, `iat` and
`nbf = iat`, at clock reading `now`. -/
def timeFlags (exp iat now : Int) : Nat :=
  (if exp = 0 then 0 else if now < exp then 0 else ValidationErrorExpired) |||
  (if iat = 0 then 0 else if iat ≤ now then 0 else ValidationErrorIssuedAt) |||
  (if iat = 0 then 0 else if iat ≤ now then 0 else ValidationErrorNotValidYet)

/-- What `jwt.Parse` returns for a token whose signature verifies under the key: the
token, valid, when its claims pass, else the validation error of the claims. -/
def verdict (claims : MapClaims) (now : Int) : ParseOutcome :=
  if claimsFlags claims now = 0 then .token (some claims) true
  else .validationError (claimsFlags claims now)

/-- The laws of the libraries that the token round trip rests on: `json.Unmarshal`
reads back what `json.Marshal` wrote, base64 decoding inverts encoding, and a token
string made by `SignedString` has no space in it (it is base64url text and dots) and
is judged by `Parse` under the same key on its claims alone. -/
def Library.Lawful {P : Type} (lib : Library P) : Prop :=
  (∀ (p : P) (data : String) (out : P), lib.Marshal p = .ok data →
    lib.Unmarshal data out = .ok p) ∧
  (∀ b : String, lib.DecodeString (lib.EncodeToString b) = .ok b) ∧
  (∀ (claims : MapClaims) (key ts : String), lib.SignedString claims key = .ok ts →
    ' ' ∉ ts.data ∧ ∀ now : Int, lib.Parse ts key now = verdict claims now)

/-- The laws of the base64 and JWT libraries alone: base64 decoding inverts encoding,
and a token string made by `SignedString` has no space in it and is judged by `Parse`
under the same key on its claims alone. -/
def Library.TokenLaws {P : Type} (lib : Library P) : Prop :=
  (∀ b : String, lib.DecodeString (lib.EncodeToString b) = .ok b) ∧
  (∀ (claims : MapClaims) (key ts : String), lib.SignedString claims key = .ok ts →
    ' ' ∉ ts.data ∧ ∀ now : Int, lib.Parse ts key now = verdict claims now)

/-- Whether the characters `pat` stand at the start of `s`. -/
def startsWith : List Char → List Char → Bool
  | [], _ => true
  | _ :: _, [] => false
  | p :: ps, c :: cs => p == c && startsWith ps cs

/-- Removes the leftmost occurrence of the non-empty `pat` from `s`. -/
def removeFirst (pat : List Char) : List Char → List Char
  | [] => []
  | c :: cs =>
    if startsWith pat (c :: cs) then (c :: cs).drop pat.length
    else c :: removeFirst pat cs

/-- The call `strings.Replace(tokenStr, "Bearer ", "", 1)` of `ParseToken`. -/
def stripBearer (tokenStr : String) : String :=
  String.mk (removeFirst "Bearer ".data tokenStr.data)

/-- The expiry `et` that `CreateToken` uses: the first per-call duration when one is
given and its `Seconds()` is positive, else the configured one. -/
def expiry (j : JWT) (expirationTime : List Int) : Int :=
  match expirationTime with
  | [] => j.c.ExpirationTime
  | d :: _ => if Seconds d > 0 then d else j.c.ExpirationTime

/-- The claims that `CreateToken` writes, for clock reading `now` (the value of
`timeUtil.Now()`, whose package is not among the sources), expiry `et` and the
base64 text of the payload. -/
def buildClaims (j : JWT) (now et : Int) (payload64 : String) : MapClaims :=
  [ ("iss", .str j.c.Issuer),
    ("exp", .num (unixSeconds (now + et))),
    ("iat", .num (unixSeconds now)),
    ("nbf", .num (unixSeconds now)),
    (PrivatePayloadName, .str payload64) ]

/-- Method `(*JWT).CreateToken(token, expirationTime...)` at clock reading `now`:
the token string, or the error text of `errors.WithMessage`. -/
def CreateToken {P : Type} (lib : Library P) (j : JWT) (token : P)
    (expirationTime : List Int) (now : Int) : Except String String :=
  let et := expiry j expirationTime
  match lib.Marshal token with
  | .error e => .error ("json marshal token err: " ++ e)
  | .ok payload =>
    let claims := buildClaims j now et (lib.EncodeToString payload)
    match lib.SignedString claims j.c.SecretKey with
    | .error e => .error ("sign token err: " ++ e)
    | .ok ts => .ok ts

/-- The error `ParseToken` returns for a `*jwt.ValidationError` with flag set
`errors`: the chain of tests on `e.Errors`. -/
def classifyValidationError (errors : Nat) : Errcode.Err :=
  if errors &&& ValidationErrorMalformed ≠ 0 then Errcode.ErrTokenVerify
  else if errors &&& ValidationErrorExpired ≠ 0 then Errcode.ErrTokenExpire
  else if errors &&& ValidationErrorNotValidYet ≠ 0 then Errcode.ErrTokenNotValidYet
  else Errcode.ErrTokenVerify

/-- Method `(*JWT).ParseToken(tokenStr, token)` when the library's clock reads `now`:
the returned error (`none` is nil) and the content of `token` afterwards, which is
`out` before the call. -/
def ParseToken {P : Type} (lib : Library P) (j : JWT) (tokenStr : String) (out : P)
    (now : Int) : Option Errcode.Err × P :=
  let tokenStr := stripBearer tokenStr
  match lib.Parse tokenStr j.c.SecretKey now with
  | .validationError errors => (some (classifyValidationError errors), out)
  | .otherError => (some Errcode.ErrTokenVerify, out)
  | .token claims valid =>
    match claims with
    | none => (some Errcode.ErrTokenVerify, out)
    | some claims =>
      if !valid then (some Errcode.ErrTokenVerify, out)
      else
        match claims.lookup PrivatePayloadName with
        | some (.str s) =>
          match lib.DecodeString s with
          | .error _ => (some Errcode.ErrTokenVerify, out)
          | .ok payload =>
            match lib.Unmarshal payload out with
            | .error _ => (some Errcode.ErrTokenVerify, out)
            | .ok token => (none, token)
        | _ => (some Errcode.ErrTokenVerify, out)

/-- A library instance that issues the one token string `tokenStr` for the claims
`claims` under the key `key`, with the identity as payload and base64 coding. Under
another key the token string fails with the signature-invalid flag, any other string
is malformed. -/
def singleTokenLibrary (claims : MapClaims) (key tokenStr : String) : Library String :=
  { Marshal := fun p => .ok p
    Unmarshal := fun data _ => .ok data
    EncodeToString := fun b => b
    DecodeString := fun s => .ok s
    SignedString := fun c k =>
      if c = claims ∧ k = key then .ok tokenStr else .error "unsupported"
    Parse := fun ts k now =>
      if ts = tokenStr then
        if k = key then verdict claims now
        else .validationError ValidationErrorSignatureInvalid
      else .validationError ValidationErrorMalformed }

/-- A library instance like `singleTokenLibrary` for a payload struct with an exported
and an unexported string field, taken as a pair: as `encoding/json` does, `Marshal`
writes the exported field only and `Unmarshal` sets the exported field of `out` and
leaves its unexported field as it is. -/
def unexportedFieldLibrary (claims : MapClaims) (key tokenStr : String) :
    Library (String × String) :=
  { Marshal := fun p => .ok p.1
    Unmarshal := fun data out => .ok (data, out.2)
    EncodeToString := fun b => b
    DecodeString := fun s => .ok s
    SignedString := fun c k =>
      if c = claims ∧ k = key then .ok tokenStr else .error "unsupported"
    Parse := fun ts k now =>
      if ts = tokenStr then
        if k = key then verdict claims now
        else .validationError ValidationErrorSignatureInvalid
      else .validationError ValidationErrorMalformed }

/-! ## jwt/interceptor.go: server streams -/

/-- A `grpc.ServerStream` value: a stream of some other type, told by an identifier,
whose `Context()` gives `ctx`, or a `*wrappedServerStream`, told by its address. -/
inductive ServerStream where
  | plain (id : Nat) (ctx : Context)
  | wrapper (addr : Nat)
deriving DecidableEq

/-- Struct `wrappedServerStream`: the embedded `grpc.ServerStream` and `WrappedContext`. -/
structure wrappedServerStream where
  ServerStream : ServerStream
  WrappedContext : Context
deriving DecidableEq

/-- The allocated `wrappedServerStream` objects; the address of one is its index. -/
abbrev StreamHeap := List wrappedServerStream

/-- The call `ss.Context()`: for a wrapper, method `(*wrappedServerStream).Context`,
which returns `WrappedContext` (`none` for an address that is not allocated). -/
def ServerStream.Context (h : StreamHeap) : ServerStream → Option Context
  | .plain _ ctx => some ctx
  | .wrapper addr => (h.get? addr).map (fun w => w.WrappedContext)

/-- Function `newWrappedServerStream(ss)`: the heap afterwards and the address of the
returned wrapper. An existing wrapper is returned as it is; otherwise a new object is
allocated with `ServerStream: ss` and `WrappedContext: ss.Context()`. -/
def newWrappedServerStream (h : StreamHeap) (ss : ServerStream) : StreamHeap × Nat :=
  match ss with
  | .wrapper addr => (h, addr)
  | .plain id ctx => (h ++ [{ ServerStream := .plain id ctx, WrappedContext := ctx }], h.length)

end Jwt

namespace Model

/-! ## stores/gdb/model/model.go -/

/-- The constants of gorm's `schema.TimeType`. -/
def UnixTime : Int := 1
def UnixSecond : Int := 2
def UnixMillisecond : Int := 3
def UnixNanosecond : Int := 4

/-- Go's `time.Millisecond` in nanoseconds. -/
def Millisecond : Int := 1000000

/-- Function `GetTimestamp(t, tt)`, with `t` taken by its `UnixNano()`; `/` on `int64`
truncates. -/
def GetTimestamp (unixNano : Int) (tt : Int) : Int :=
  if tt = UnixMillisecond then Int.tdiv unixNano Millisecond
  else if tt = UnixNanosecond then unixNano
  else Int.tdiv unixNano Millisecond

/-- A value held in the update map (an `interface{}`): an integer, a string, or a
value of another type told by an identifier. -/
inductive Value where
  | int (n : Int)
  | str (s : String)
  | other (id : Nat)
deriving DecidableEq

/-- A field of gorm's parsed schema, `stmt.Schema.Fields[i]`, by what `ParseUpdateMap`
reads from it, together with the two results of `f.ValueOf(rv)` for the model data:
the field's value and whether it is the zero value. -/
structure Field where
  DBName : String
  PrimaryKey : Bool
  AutoCreateTime : Int
  AutoUpdateTime : Int
  value : Value
  zero : Bool
deriving DecidableEq

/-- A `map[string]V`: an association list with distinct keys. -/
abbrev GoMap (V : Type) := List (String × V)

/-- Map write `m[k] = v`. -/
def GoMap.set {V : Type} (m : GoMap V) (k : String) (v : V) : GoMap V :=
  (k, v) :: m.filter (fun p => !(p.1 == k))

/-- Map read `_, ok := m[k]`. -/
def GoMap.has {V : Type} (m : GoMap V) (k : String) : Bool := (m.lookup k).isSome

/-- Modelled from the spec: `sliceUtil.CountString` of package `kit/slice`, which is not
among the sources. The spec does not describe it; by its name and by its use here,
where only the presence of a key is read, it is the map from each string of the slice
to the number of its occurrences. -/
def CountString (ss : List String) : GoMap Nat :=
  ss.foldl (fun m s => m.set s ((m.lookup s).getD 0 + 1)) []

/-- The body of the loop of `ParseUpdateMap` when `selects` is not empty, for the
field `f`: `um` after the iteration; `sm` is the count map of `selects`. -/
def selectStep (now : Int) (sm : GoMap Nat) (um : GoMap Value) (f : Field) : GoMap Value :=
  if sm.has f.DBName then um.set f.DBName f.value
  else if f.AutoUpdateTime > 0 then
    um.set f.DBName (.int (GetTimestamp now f.AutoUpdateTime))
  else um

/-- The body of the loop of `ParseUpdateMap` when `selects` is empty, for the field
`f`: `um` after the iteration; `om` and `nim` are the count maps of `omits` and
`notIgnores`. -/
def updateStep (now : Int) (om nim : GoMap Nat) (um : GoMap Value) (f : Field) :
    GoMap Value :=
  if !om.has f.DBName then
    if nim.has f.DBName then um.set f.DBName f.value
    else if !f.PrimaryKey && f.AutoCreateTime == 0 && !f.zero then um.set f.DBName f.value
    else if f.AutoUpdateTime > 0 then
      um.set f.DBName (.int (GetTimestamp now f.AutoUpdateTime))
    else um
  else um

/-- Method `(*BaseModel).ParseUpdateMap(data, omits, selects, notIgnores...)`. The
argument `data` is the outcome of gorm's `stmt.Parse(data)`: an error, or the fields
of the schema, in order, with the values of the model data; `now` is the `UnixNano()`
of `db.NowFunc()`. -/
def ParseUpdateMap (data : Except String (List Field)) (now : Int)
    (omits selects notIgnores : List String) : Except String (GoMap Value) :=
  match data with
  | .error err => .error err
  | .ok fields =>
    if selects.length > 0 then
      let sm := CountString selects
      .ok (fields.foldl (selectStep now sm) [])
    else
      let om := CountString omits
      let nim := CountString notIgnores
      .ok (fields.foldl (updateStep now om nim) [])

/-- The stated condition for a field to get a key in the update map when `selects` is
empty: not listed in `omits`, and listed in `notIgnores`, or not the primary key, not
an auto-create-time field and not zero, or an auto-update-time field. -/
def specIncluded (omits notIgnores : List String) (f : Field) : Prop :=
  f.DBName ∉ omits ∧
    (f.DBName ∈ notIgnores ∨
      (f.PrimaryKey = false ∧ f.AutoCreateTime = 0 ∧ f.zero = false) ∨
      f.AutoUpdateTime > 0)

instance (omits notIgnores : List String) (f : Field) :
    Decidable (specIncluded omits notIgnores f) := by
  unfold specIncluded; infer_instance

/-- The value that the loop body of `ParseUpdateMap` (empty `selects`) stores when it
writes the key of `f`: `fv` on its first two branches, the result of `GetTimestamp` on
the third. -/
def writtenValue (now : Int) (notIgnores : List String) (f : Field) : Value :=
  if f.DBName ∈ notIgnores ∨
      (f.PrimaryKey = false ∧ f.AutoCreateTime = 0 ∧ f.zero = false) then f.value
  else .int (GetTimestamp now f.AutoUpdateTime)

/-- The schema fields and values of the model data
`UserAuth{UserId: userId, Name: name, Type: type, Status: status,
TimeInfo{UpdateTime: updateTime}}` of the repository's test `TestParseUpdateMap`. -/
def userAuthFields (userId : Int) (name : String) (type status updateTime : Int) :
    List Field :=
  [ ⟨"id", true, 0, 0, .int 0, true⟩,
    ⟨"user_id", false, 0, 0, .int userId, userId == 0⟩,
    ⟨"name", false, 0, 0, .str name, name == ""⟩,
    ⟨"type", false, 0, 0, .int type, type == 0⟩,
    ⟨"status", false, 0, 0, .int status, status == 0⟩,
    ⟨"create_time", false, UnixMillisecond, 0, .int 0, true⟩,
    ⟨"update_time", false, 0, UnixMillisecond, .int updateTime, updateTime == 0⟩ ]

end Model

namespace Errcode

/-! ## Properties of the error table -/

theorem get_cons (t : Table) (k c : Nat) (e : Err) :
    Table.get ((k, e) :: t) c = if c = k then some e else t.get c := by
  unfold Table.get
  by_cases h : c = k
  · subst h; simp [List.lookup]
  · have : (c == k) = false := by simpa using h
    simp [List.lookup, this, h]

theorem SetCodeToErr_get_of_some (t : Table) (code c : Nat) (e x : Err)
    (h : t.get c = some x) : (SetCodeToErr t code e).1.get c = some x := by
  unfold SetCodeToErr
  cases hc : t.get code with
  | some y => simpa using h
  | none =>
    have hne : c ≠ code := by
      intro hcc; subst hcc; rw [h] at hc; cases hc
    simp [get_cons, hne, h]

theorem registerAll_get_of_some (calls : List (Nat × Err)) :
    ∀ (t : Table) (c : Nat) (x : Err), t.get c = some x →
      (registerAll t calls).get c = some x := by
  induction calls with
  | nil => intro t c x h; simpa [registerAll] using h
  | cons a rest ih =>
    intro t c x h
    have h1 := SetCodeToErr_get_of_some t a.1 c a.2 x h
    have := ih (SetCodeToErr t a.1 a.2).1 c x h1
    simpa [registerAll] using this

/-- C3: `SetCodeToErr` is write-once. On a registered code it returns the error
"has exist" and leaves the table as it was; on an unregistered code it returns nil,
binds the code to the new entry and keeps every other code's entry; and an entry in
the table (the initial `200 -> NoErr` among them) survives any sequence of calls. -/
theorem SetCodeToErr_write_once (t : Table) (code : Nat) (e : Err) :
    (t.get code ≠ none → SetCodeToErr t code e = (t, some "has exist")) ∧
    (t.get code = none →
      (SetCodeToErr t code e).2 = none ∧
      (SetCodeToErr t code e).1.get code = some e ∧
      ∀ c, c ≠ code → (SetCodeToErr t code e).1.get c = t.get c) ∧
    (∀ (calls : List (Nat × Err)) (c : Nat) (x : Err), t.get c = some x →
      (registerAll t calls).get c = some x) ∧
    (∀ calls : List (Nat × Err), (registerAll codeToErr calls).get 200 = some NoErr) := by
  refine ⟨?_, ?_, ?_, ?_⟩
  · intro h
    unfold SetCodeToErr
    cases hc : t.get code with
    | some y => rfl
    | none => exact absurd hc h
  · intro h
    unfold SetCodeToErr
    rw [h]
    refine ⟨rfl, ?_, ?_⟩
    · simp [get_cons]
    · intro c hc
      simp [get_cons, hc]
  · intro calls c x h
    exact registerAll_get_of_some calls t c x h
  · intro calls
    exact registerAll_get_of_some calls codeToErr 200 NoErr (by decide)

/-- C3 at concrete calls on the initial table: registering `200` again is refused and
changes nothing, registering the new code `20000` succeeds and keeps `200 -> NoErr`. -/
theorem SetCodeToErr_write_once_witness :
    SetCodeToErr codeToErr 200 ⟨200, 500, "other"⟩ = (codeToErr, some "has exist") ∧
    (SetCodeToErr codeToErr 20000 ⟨20000, 200, "new"⟩).2 = none ∧
    (SetCodeToErr codeToErr 20000 ⟨20000, 200, "new"⟩).1.get 20000 =
      some ⟨20000, 200, "new"⟩ ∧
    (SetCodeToErr codeToErr 20000 ⟨20000, 200, "new"⟩).1.get 200 = some NoErr :=
  ⟨(SetCodeToErr_write_once codeToErr 200 ⟨200, 500, "other"⟩).1 (by decide),
   ((SetCodeToErr_write_once codeToErr 20000 ⟨20000, 200, "new"⟩).2.1 (by decide)).1,
   ((SetCodeToErr_write_once codeToErr 20000 ⟨20000, 200, "new"⟩).2.1 (by decide)).2.1,
   (SetCodeToErr_write_once codeToErr 20000 ⟨20000, 200, "new"⟩).2.2.2
     [(20000, ⟨20000, 200, "new"⟩)]⟩

theorem SetCodeToErr_get_none (t : Table) (code c : Nat) (e : Err)
    (hne : code ≠ c) (h : t.get c = none) : (SetCodeToErr t code e).1.get c = none := by
  unfold SetCodeToErr
  cases hc : t.get code with
  | some y => simpa using h
  | none =>
    have : c ≠ code := fun x => hne x.symm
    simp [get_cons, this, h]

theorem registerAll_get_none (calls : List (Nat × Err)) (c : Nat) :
    ∀ t : Table, (∀ p ∈ calls, p.1 ≠ c) → t.get c = none →
      (registerAll t calls).get c = none := by
  induction calls with
  | nil => intro t _ h; simpa [registerAll] using h
  | cons a rest ih =>
    intro t hcalls h
    have h1 := SetCodeToErr_get_none t a.1 c a.2 (hcalls a (by simp)) h
    have := ih (SetCodeToErr t a.1 a.2).1 (fun p hp => hcalls p (by simp [hp])) h1
    simpa [registerAll] using this

/-- C4: `ParseCode` is total and exact. It returns the entry bound to a registered
code, whether the binding is in the initial table, was made by a successful
`SetCodeToErr`, or was made before any further sequence of registrations; for an
unregistered code it returns `ErrUnexpected`, whose code is 7777 and whose HTTP
status is 500, not the success status 200. -/
theorem ParseCode_total_exact (t : Table) (c : Nat) :
    (∀ e, t.get c = some e → ParseCode t c = e) ∧
    (∀ e, t.get c = none → ParseCode (SetCodeToErr t c e).1 c = e) ∧
    (∀ e calls, t.get c = some e → ParseCode (registerAll t calls) c = e) ∧
    (∀ p ∈ codeToErr, ParseCode codeToErr p.1 = p.2) ∧
    (t.get c = none → ParseCode t c = ErrUnexpected) ∧
    ErrUnexpected.Code = 7777 ∧ ErrUnexpected.HTTPCode = 500 ∧
    ErrUnexpected.HTTPCode ≠ StatusOK := by
  refine ⟨?_, ?_, ?_, ?_, ?_, rfl, rfl, by decide⟩
  · intro e h
    simp [ParseCode, h]
  · intro e h
    simp [ParseCode, SetCodeToErr, h, get_cons]
  · intro e calls h
    simp [ParseCode, registerAll_get_of_some calls t c e h]
  · decide
  · intro h
    simp [ParseCode, h]

/-- C4 at concrete codes: `10004` is registered initially, `3` is not. -/
theorem ParseCode_total_exact_witness :
    ParseCode codeToErr 10004 = ErrTokenExpire ∧ ParseCode codeToErr 3 = ErrUnexpected :=
  ⟨(ParseCode_total_exact codeToErr 10004).1 ErrTokenExpire (by decide),
   (ParseCode_total_exact codeToErr 3).2.2.2.2.1 (by decide)⟩

/-- C5: `ParseErr(nil)` is `NoErr`, the entry with code 200, message "Successful" and
HTTP status 200, and `ParseErr` of a business error is that error itself, for any
code, message and status, in any table state. -/
theorem ParseErr_nil_and_business (t : Table) :
    ParseErr t none = NoErr ∧
    NoErr = { code := 200, httpCode := 200, msg := "Successful" } ∧
    ∀ e : Err, ParseErr t (some (.biz e)) = e :=
  ⟨rfl, rfl, fun _ => rfl⟩

/-- C6: for an error carrying a transport status with code `s` and message `m`,
`ParseErr` returns the custom error with code 7000, message `m` and HTTP status 200
when `s = 7000`, and `ParseCode(s)` otherwise: the entry registered under `s`, or
`ErrUnexpected` when there is none. -/
theorem ParseErr_status (t : Table) (s : Nat) (m : String) :
    (s = 7000 →
      ParseErr t (some (.status s m)) = { code := 7000, httpCode := 200, msg := m }) ∧
    (s ≠ 7000 → ParseErr t (some (.status s m)) = ParseCode t s) ∧
    (s ≠ 7000 → ∀ e, t.get s = some e → ParseErr t (some (.status s m)) = e) ∧
    (s ≠ 7000 → t.get s = none → ParseErr t (some (.status s m)) = ErrUnexpected) := by
  refine ⟨?_, ?_, ?_, ?_⟩
  · intro h
    subst h
    rfl
  · intro h
    simp [ParseErr, statusFromError, CodeCustom, h]
  · intro h e he
    simp [ParseErr, statusFromError, CodeCustom, h, ParseCode, he]
  · intro h he
    simp [ParseErr, statusFromError, CodeCustom, h, ParseCode, he]

/-- C6 at concrete status errors on the initial table. -/
theorem ParseErr_status_witness :
    ParseErr codeToErr (some (.status 7000 "quota used up")) =
      { code := 7000, httpCode := 200, msg := "quota used up" } ∧
    ParseErr codeToErr (some (.status 10003 "x")) = ParseCode codeToErr 10003 ∧
    ParseErr codeToErr (some (.status 5 "not found")) = ErrUnexpected :=
  ⟨(ParseErr_status codeToErr 7000 "quota used up").1 rfl,
   (ParseErr_status codeToErr 10003 "x").2.1 (by decide),
   (ParseErr_status codeToErr 5 "not found").2.2.2 (by decide) (by decide)⟩

/-- C7 (as stated) fails: after the registration `SetCodeToErr(2, e)`, which the
initial table accepts, a plain error is classified as `e`, not as `ErrUnexpected`. -/
theorem ParseErr_other_counterexample :
    (SetCodeToErr codeToErr 2 ⟨2, 200, "unknown"⟩).2 = none ∧
    ParseErr (SetCodeToErr codeToErr 2 ⟨2, 200, "unknown"⟩).1 (some (.other "boom")) =
      ⟨2, 200, "unknown"⟩ ∧
    (⟨2, 200, "unknown"⟩ : Err) ≠ ErrUnexpected := by
  decide

/-- C7 (amended): for a non-nil error that is neither a business error nor a status
error, `ParseErr` returns `ParseCode(2)` in every table state; this is `ErrUnexpected`
in every state reached from the initial table by registrations none of which
registers code 2, the initial table itself included. -/
theorem ParseErr_other (msg : String) :
    (∀ t : Table, ParseErr t (some (.other msg)) = ParseCode t codesUnknown) ∧
    (∀ calls : List (Nat × Err), (∀ p ∈ calls, p.1 ≠ 2) →
      ParseErr (registerAll codeToErr calls) (some (.other msg)) = ErrUnexpected) ∧
    ParseErr codeToErr (some (.other msg)) = ErrUnexpected := by
  have hall : ∀ t : Table, ParseErr t (some (.other msg)) = ParseCode t codesUnknown := by
    intro t
    simp [ParseErr, statusFromError, codesUnknown, CodeCustom]
  have hreg : ∀ calls : List (Nat × Err), (∀ p ∈ calls, p.1 ≠ 2) →
      ParseErr (registerAll codeToErr calls) (some (.other msg)) = ErrUnexpected := by
    intro calls hcalls
    have hnone := registerAll_get_none calls 2 codeToErr hcalls (by decide)
    rw [hall]
    simp [ParseCode, codesUnknown, hnone]
  refine ⟨hall, hreg, ?_⟩
  simpa [registerAll] using hreg [] (by simp)

/-- C7 (amended) at a concrete registration sequence that leaves code 2 alone. -/
theorem ParseErr_other_witness :
    ParseErr (registerAll codeToErr [(20000, ⟨20000, 200, "new"⟩), (3, ⟨3, 404, "gone"⟩)])
      (some (.other "boom")) = ErrUnexpected :=
  (ParseErr_other "boom").2.1 [(20000, ⟨20000, 200, "new"⟩), (3, ⟨3, 404, "gone"⟩)]
    (by decide)

end Errcode

namespace Logger

open Errcode

/-! ## Status bridge -/

/-- C8: `DefaultErrorToCode` is total: nil gives `OK` (0); an error carrying a
transport status gives that status's code; a business error gives the code equal to
`e.Code()`, so business errors with different codes get different transport codes;
any other error gives `Unknown` (2). -/
theorem DefaultErrorToCode_total :
    DefaultErrorToCode none = 0 ∧
    (∀ (s : Nat) (m : String), DefaultErrorToCode (some (.status s m)) = s) ∧
    (∀ e : Err, DefaultErrorToCode (some (.biz e)) = e.Code) ∧
    (∀ e1 e2 : Err, e1.Code ≠ e2.Code →
      DefaultErrorToCode (some (.biz e1)) ≠ DefaultErrorToCode (some (.biz e2))) ∧
    (∀ m : String, DefaultErrorToCode (some (.other m)) = 2) :=
  ⟨rfl, fun _ _ => rfl, fun _ => rfl, fun _ _ h => h, fun _ => rfl⟩

/-- C8 at two business errors of the initial table with different codes. -/
theorem DefaultErrorToCode_total_witness :
    DefaultErrorToCode (some (.biz ErrTokenVerify)) ≠
      DefaultErrorToCode (some (.biz ErrTokenExpire)) :=
  DefaultErrorToCode_total.2.2.2.1 ErrTokenVerify ErrTokenExpire (by decide)

theorem acrossBoundary_registered (t : Table) (e : Err) (h0 : e.code ≠ 0)
    (h7 : e.code ≠ 7000) (ht : t.get e.code = some e) : acrossBoundary t e = e := by
  simp [acrossBoundary, DefaultErrorToCode, statusError, codesOK, Err.Code, h0, ParseErr,
    statusFromError, CodeCustom, h7, ParseCode, ht]

theorem acrossBoundary_custom (t : Table) (msg : String) (httpCode : List Int) :
    acrossBoundary t (NewCustomErr msg httpCode) =
      { code := 7000, httpCode := 200, msg := msg } := by
  cases httpCode <;> rfl

/-- C9 (as stated) fails: a custom error made with HTTP status 500 comes out of the
boundary with HTTP status 200. -/
theorem acrossBoundary_counterexample :
    acrossBoundary codeToErr (NewCustomErr "quota used up" [500]) =
      { code := 7000, httpCode := 200, msg := "quota used up" } ∧
    (NewCustomErr "quota used up" [500]).HTTPCode = 500 := by
  decide

/-- C9 (amended): consistent triple across the RPC boundary. For a receiver whose
table is the initial one or reached from it by registrations, every entry of the
initial table comes out of the boundary unchanged, and so does a custom error whose
HTTP status is 200 (the default, or given as 200); for a custom error with any
message and any HTTP status the code 7000 and the message are kept and the HTTP status
of the result is 200. -/
theorem acrossBoundary_triple :
    (∀ (calls : List (Nat × Err)), ∀ p ∈ codeToErr,
      acrossBoundary (registerAll codeToErr calls) p.2 = p.2) ∧
    (∀ (t : Table) (msg : String),
      acrossBoundary t (NewCustomErr msg []) = NewCustomErr msg []) ∧
    (∀ (t : Table) (msg : String) (more : List Int),
      acrossBoundary t (NewCustomErr msg (200 :: more)) = NewCustomErr msg (200 :: more)) ∧
    (∀ (t : Table) (msg : String) (httpCode : List Int),
      (acrossBoundary t (NewCustomErr msg httpCode)).Code = (NewCustomErr msg httpCode).Code ∧
      (acrossBoundary t (NewCustomErr msg httpCode)).Error =
        (NewCustomErr msg httpCode).Error ∧
      (acrossBoundary t (NewCustomErr msg httpCode)).HTTPCode = 200) := by
  refine ⟨?_, ?_, ?_, ?_⟩
  · intro calls p hp
    have hcases : ∀ q ∈ codeToErr, q.2 = NewCustomErr MsgCustom [] ∨
        (q.2.code ≠ 0 ∧ q.2.code ≠ 7000 ∧ codeToErr.get q.2.code = some q.2) := by
      decide
    rcases hcases p hp with h | ⟨h0, h7, hg⟩
    · rw [h, acrossBoundary_custom]
      rfl
    · exact acrossBoundary_registered _ _ h0 h7
        (registerAll_get_of_some calls codeToErr _ _ hg)
  · intro t msg
    rw [acrossBoundary_custom]
    rfl
  · intro t msg more
    rw [acrossBoundary_custom]
    rfl
  · intro t msg httpCode
    rw [acrossBoundary_custom]
    cases httpCode <;> exact ⟨rfl, rfl, rfl⟩

/-- C9 (amended) at the entry `ErrTokenExpire` of the initial table, received by a
table with one more registration. -/
theorem acrossBoundary_triple_witness :
    acrossBoundary (registerAll codeToErr [(20000, ⟨20000, 200, "new"⟩)]) ErrTokenExpire =
      ErrTokenExpire :=
  acrossBoundary_triple.1 [(20000, ⟨20000, 200, "new"⟩)] (10004, ErrTokenExpire)
    (by decide)

end Logger

namespace Jwt

/-! ## Issuer construction -/

theorem Seconds_eq (d : Int) : Seconds d = (d : ℚ) / 1000000000 := by
  have h := Int.tdiv_add_tmod d Second
  have hq : (d : ℚ) = (Second : ℚ) * (Int.tdiv d Second : ℚ) + (Int.tmod d Second : ℚ) := by
    exact_mod_cast h.symm
  have hs : (Second : ℚ) = 1000000000 := by simp [Second]
  unfold Seconds
  simp only []
  rw [hq, hs]
  field_simp
  ring

theorem Seconds_le_zero_iff (d : Int) : Seconds d ≤ 0 ↔ d ≤ 0 := by
  rw [Seconds_eq]
  constructor
  · intro h
    have : (d : ℚ) ≤ 0 := by
      by_contra hc
      push_neg at hc
      have : (0 : ℚ) < (d : ℚ) / 1000000000 := by positivity
      linarith
    exact_mod_cast this
  · intro h
    have : (d : ℚ) ≤ 0 := by exact_mod_cast h
    exact div_nonpos_of_nonpos_of_nonneg this (by norm_num)

/-- C10: `NewJWT(c)` fails, always with the error "jwt: illegal jwt configure" and
without an issuer, exactly when `c` is nil, `c.Issuer` is empty, `c.SecretKey` is
empty or `c.ExpirationTime` is zero or negative; otherwise it returns no error and an
issuer holding `c`. -/
theorem NewJWT_config (c : Option Config) :
    (NewJWT c = .error "jwt: illegal jwt configure" ↔
      (c = none ∨ ∃ cfg, c = some cfg ∧
        (cfg.Issuer = "" ∨ cfg.SecretKey = "" ∨ cfg.ExpirationTime ≤ 0))) ∧
    (∀ cfg, c = some cfg → cfg.Issuer ≠ "" → cfg.SecretKey ≠ "" → 0 < cfg.ExpirationTime →
      NewJWT c = .ok { c := cfg }) ∧
    (∀ m, NewJWT c = .error m → m = "jwt: illegal jwt configure") ∧
    (∀ j, NewJWT c = .ok j → c = some j.c) := by
  cases c with
  | none => simp [NewJWT]
  | some cfg =>
    by_cases hbad : cfg.Issuer = "" ∨ cfg.SecretKey = "" ∨ cfg.ExpirationTime ≤ 0
    · have hcond : cfg.Issuer = "" ∨ cfg.SecretKey = "" ∨ Seconds cfg.ExpirationTime ≤ 0 := by
        rw [Seconds_le_zero_iff]; exact hbad
      have hnew : NewJWT (some cfg) = .error "jwt: illegal jwt configure" := by
        simp only [NewJWT, hcond, if_true]
      refine ⟨?_, ?_, ?_, ?_⟩
      · simp [hnew, hbad]
      · intro cfg2 h2 hi hs he
        cases h2
        rcases hbad with h | h | h
        · exact absurd h hi
        · exact absurd h hs
        · omega
      · intro m hm
        rw [hnew] at hm
        cases hm
        rfl
      · intro j hj
        rw [hnew] at hj
        cases hj
    · have hcond : ¬ (cfg.Issuer = "" ∨ cfg.SecretKey = "" ∨
          Seconds cfg.ExpirationTime ≤ 0) := by
        rw [Seconds_le_zero_iff]; exact hbad
      have hnew : NewJWT (some cfg) = .ok { c := cfg } := by
        simp only [NewJWT, hcond, if_false]
      refine ⟨?_, ?_, ?_, ?_⟩
      · simp [hnew, hbad]
      · intro cfg2 h2 _ _ _
        cases h2
        exact hnew
      · intro m hm
        rw [hnew] at hm
        cases hm
      · intro j hj
        rw [hnew] at hj
        cases hj
        rfl

/-- C10 at the configurations of the repository's test: an empty secret key and a
negative expiry are refused, the 72 hour configuration is accepted. -/
theorem NewJWT_config_witness :
    NewJWT (some ⟨"gate-micro", "", 259200000000000⟩) = .error "jwt: illegal jwt configure" ∧
    NewJWT (some ⟨"gate-micro", "ABCDEFGH", -259200000000000⟩) =
      .error "jwt: illegal jwt configure" ∧
    NewJWT (some ⟨"gate-micro", "ABCDEFGH", 259200000000000⟩) =
      .ok { c := ⟨"gate-micro", "ABCDEFGH", 259200000000000⟩ } :=
  ⟨(NewJWT_config (some ⟨"gate-micro", "", 259200000000000⟩)).1.2
      (Or.inr ⟨_, rfl, Or.inr (Or.inl rfl)⟩),
   (NewJWT_config (some ⟨"gate-micro", "ABCDEFGH", -259200000000000⟩)).1.2
      (Or.inr ⟨_, rfl, Or.inr (Or.inr (by decide))⟩),
   (NewJWT_config (some ⟨"gate-micro", "ABCDEFGH", 259200000000000⟩)).2.1 _ rfl
      (by decide) (by decide) (by decide)⟩

end Jwt

namespace Convert

/-! ## Decimal conversion round trip -/

theorem digitValue_digitChar (d : Nat) (h : d < 10) : digitValue (digitChar d) = some d := by
  interval_cases d <;> decide

theorem digitChar_ne_minus (d : Nat) (h : d < 10) : digitChar d ≠ '-' := by
  interval_cases d <;> decide

theorem parseDigits_append (l1 l2 : List Char) :
    ∀ acc, parseDigits (l1 ++ l2) acc = (parseDigits l1 acc).bind (parseDigits l2) := by
  induction l1 with
  | nil => intro acc; simp [parseDigits]
  | cons c cs ih =>
    intro acc
    simp only [List.cons_append, parseDigits]
    cases digitValue c with
    | none => simp
    | some d => simpa using ih (10 * acc + d)

theorem parseDigits_natDigits (fuel : Nat) :
    ∀ n, n < fuel → parseDigits (natDigits fuel n) 0 = some n := by
  induction fuel with
  | zero => intro n h; omega
  | succ f ih =>
    intro n h
    unfold natDigits
    by_cases h10 : n < 10
    · simp [h10, parseDigits, digitValue_digitChar n h10]
    · have hlt : n / 10 < f := by omega
      have hmod : n % 10 < 10 := Nat.mod_lt _ (by decide)
      simp only [h10, if_false, parseDigits_append, ih (n / 10) hlt, Option.some_bind,
        parseDigits, digitValue_digitChar (n % 10) hmod]
      congr 1
      omega

theorem natDigits_head (fuel : Nat) :
    ∀ n, ∃ d rest, d < 10 ∧ natDigits (fuel + 1) n = digitChar d :: rest := by
  induction fuel with
  | zero =>
    intro n
    by_cases h10 : n < 10
    · exact ⟨n, [], h10, by simp [natDigits, h10]⟩
    · exact ⟨n % 10, [], Nat.mod_lt _ (by decide), by simp [natDigits, h10]⟩
  | succ f ih =>
    intro n
    by_cases h10 : n < 10
    · exact ⟨n, [], h10, by simp [natDigits, h10]⟩
    · obtain ⟨d, rest, hd, hr⟩ := ih (n / 10)
      refine ⟨d, rest ++ [digitChar (n % 10)], hd, ?_⟩
      rw [natDigits]
      simp [h10, hr]

theorem parseInt_natDigits (k : Nat) : parseInt (natDigits (k + 1) k) = some (k : Int) := by
  obtain ⟨d, rest, hd, hr⟩ := natDigits_head k k
  have hp := parseDigits_natDigits (k + 1) k (Nat.lt_succ_self k)
  rw [hr] at hp ⊢
  simp [parseInt, digitChar_ne_minus d hd, hp]

theorem parseInt_neg_natDigits (k : Nat) :
    parseInt ('-' :: natDigits (k + 2) (k + 1)) = some (Int.negSucc k) := by
  obtain ⟨d, rest, _, hr⟩ := natDigits_head (k + 1) (k + 1)
  have hp := parseDigits_natDigits (k + 2) (k + 1) (Nat.lt_succ_self _)
  have hne : (natDigits (k + 2) (k + 1)).isEmpty = false := by rw [hr]; rfl
  simp only [parseInt, if_true, hne, hp, Option.map_some']
  simp [Int.negSucc_eq]

/-- Reading back the decimal text of an `int64` gives the number. -/
theorem ToInt64_ToString (n : Int) (h : isInt64 n) : ToInt64 (ToString n) = n := by
  cases n with
  | ofNat k =>
    have := parseInt_natDigits k
    simp only [ToInt64, ToString, this]
    simp only [Int.ofNat_eq_coe] at h
    simp [h]
  | negSucc k =>
    have := parseInt_neg_natDigits k
    simp only [ToInt64, ToString, this]
    simp [h]

end Convert

namespace Jwt

open Convert

/-! ## Metadata maps -/

theorem index_set (md : MD) (k k2 : String) (vs : List String) :
    (md.set k vs).index k2 = if k2 = k then vs else md.index k2 := by
  unfold MD.set MD.index
  by_cases h : k2 = k
  · subst h; simp [List.lookup]
  · have hb : (k2 == k) = false := by simpa using h
    simp only [List.lookup, hb, h, if_false]
    congr 1
    induction md with
    | nil => rfl
    | cons p rest ih =>
      by_cases hp : p.1 = k
      · have hk2 : (k2 == p.1) = false := by simpa [hp] using h
        simp [List.filter, hp, List.lookup, hb, ih]
      · have hpb : (p.1 == k) = false := by simpa using hp
        simp only [List.filter, hpb, Bool.not_false, List.lookup]
        cases hk : (k2 == p.1) <;> simp [ih]

/-- The values under a key after `addPairs`: those already there, then the values of
the added pairs with that (lower-cased) key, in order. -/
theorem addPairs_index (ps : List (String × String)) :
    ∀ (md : MD) (k : String), (addPairs ps md).index k =
      md.index k ++ (ps.filter (fun p => decide (stringsToLower p.1 = k))).map (fun p => p.2) := by
  induction ps with
  | nil => intro md k; simp [addPairs]
  | cons p rest ih =>
    intro md k
    have hstep : addPairs (p :: rest) md =
        addPairs rest (md.set (stringsToLower p.1) (md.index (stringsToLower p.1) ++ [p.2])) := by
      simp [addPairs]
    rw [hstep, ih, index_set]
    by_cases h : stringsToLower p.1 = k
    · subst h; simp [List.filter]
    · have h2 : ¬ k = stringsToLower p.1 := fun e => h e.symm
      simp [List.filter, h, h2]

theorem toPairs_flattenPairs (ps : List (String × String)) :
    toPairs (flattenPairs ps) = some ps := by
  induction ps with
  | nil => rfl
  | cons p rest ih => simp [flattenPairs, toPairs, ih]

theorem flattenPairs_append (ps qs : List (String × String)) :
    flattenPairs (ps ++ qs) = flattenPairs ps ++ flattenPairs qs := by
  induction ps with
  | nil => rfl
  | cons p rest ih => simp [flattenPairs, ih]

theorem foldl_collectPairs (rs : List Int) :
    ∀ acc : List String,
      rs.foldl (fun s roleId => (collectPairs roleIdKey (Convert.ToString roleId) s).2) acc =
        acc ++ flattenPairs (rs.map (fun roleId => (roleIdKey, Convert.ToString roleId))) := by
  induction rs with
  | nil => intro acc; simp [flattenPairs]
  | cons r rest ih =>
    intro acc
    rw [List.foldl_cons, ih]
    simp [collectPairs, flattenPairs]

/-- The strings `Visit` hands to the collecting callback are the flattened pairs. -/
theorem Visit_collectPairs (t : Token) :
    t.Visit collectPairs [] = flattenPairs t.pairs := by
  unfold Token.Visit Token.pairs
  rw [foldl_collectPairs, flattenPairs_append]
  simp [collectPairs, flattenPairs]

theorem foldl_ToInt64 (ris : List String) :
    ∀ acc : List Int,
      ris.foldl (fun roleIds ri => roleIds ++ [ToInt64 ri]) acc = acc ++ ris.map ToInt64 := by
  induction ris with
  | nil => intro acc; simp
  | cons r rest ih => intro acc; simp [ih]

theorem map_ToInt64_ToString (rs : List Int) (h : ∀ r ∈ rs, isInt64 r) :
    (rs.map Convert.ToString).map ToInt64 = rs := by
  induction rs with
  | nil => rfl
  | cons r rest ih =>
    have h1 := ToInt64_ToString r (h r (by simp))
    have h2 := ih (fun x hx => h x (by simp [hx]))
    simp only [List.map_cons, h1, h2]

theorem filter_role_pairs_ne (rs : List Int) (k : String)
    (hk : stringsToLower roleIdKey ≠ k) :
    (rs.map (fun roleId => (roleIdKey, Convert.ToString roleId))).filter
      (fun p => decide (stringsToLower p.1 = k)) = [] := by
  induction rs with
  | nil => rfl
  | cons r rest ih => simp [List.filter, hk, ih]

theorem filter_role_pairs_eq (rs : List Int) :
    (rs.map (fun roleId => (roleIdKey, Convert.ToString roleId))).filter
      (fun p => decide (stringsToLower p.1 = stringsToLower roleIdKey)) =
      rs.map (fun roleId => (roleIdKey, Convert.ToString roleId)) := by
  induction rs with
  | nil => rfl
  | cons r rest ih => simp [List.filter, ih]

/-- What `md.Get` reads under each identity key once a token's pairs were added to
metadata that held none of these keys. -/
theorem Get_addPairs_pairs (c : Token) (base : MD)
    (hb : ∀ k ∈ identityKeys, base.Get k = []) :
    (addPairs c.pairs base).Get tokenTypeKey = [c.TokenType] ∧
    (addPairs c.pairs base).Get randomIdKey = [c.RandomId] ∧
    (addPairs c.pairs base).Get loginTypeKey = [c.LoginType] ∧
    (addPairs c.pairs base).Get userIdKey = [Convert.ToString c.UserId] ∧
    (addPairs c.pairs base).Get roleIdKey = c.RoleIds.map Convert.ToString := by
  have h1 := hb tokenTypeKey (by simp [identityKeys])
  have h2 := hb randomIdKey (by simp [identityKeys])
  have h3 := hb loginTypeKey (by simp [identityKeys])
  have h4 := hb userIdKey (by simp [identityKeys])
  have h5 := hb roleIdKey (by simp [identityKeys])
  unfold MD.Get at h1 h2 h3 h4 h5 ⊢
  have e1 : stringsToLower tokenTypeKey = "x-token-type" := by decide
  have e2 : stringsToLower randomIdKey = "x-random-id" := by decide
  have e3 : stringsToLower loginTypeKey = "x-login-type" := by decide
  have e4 : stringsToLower userIdKey = "x-user-id" := by decide
  have e5 : stringsToLower roleIdKey = "x-role-id" := by decide
  refine ⟨?_, ?_, ?_, ?_, ?_⟩
  · rw [addPairs_index, h1, Token.pairs, List.filter_append,
      filter_role_pairs_ne _ _ (by rw [e1, e5]; decide)]
    simp [List.filter, e1, e2, e3, e4]
  · rw [addPairs_index, h2, Token.pairs, List.filter_append,
      filter_role_pairs_ne _ _ (by rw [e2, e5]; decide)]
    simp [List.filter, e1, e2, e3, e4]
  · rw [addPairs_index, h3, Token.pairs, List.filter_append,
      filter_role_pairs_ne _ _ (by rw [e3, e5]; decide)]
    simp [List.filter, e1, e2, e3, e4]
  · rw [addPairs_index, h4, Token.pairs, List.filter_append,
      filter_role_pairs_ne _ _ (by rw [e4, e5]; decide)]
    simp [List.filter, e1, e2, e3, e4]
  · rw [addPairs_index, h5, Token.pairs, List.filter_append, filter_role_pairs_eq]
    simp [List.filter, e1, e2, e3, e4, e5, Function.comp_def]

/-- Deserializing metadata to which a token's pairs were added, and that held no
identity key before, gives the token back. -/
theorem FromMD_addPairs (c : Token) (h : c.isInt64) (base : MD)
    (hb : ∀ k ∈ identityKeys, base.Get k = []) :
    FromMD (some (addPairs c.pairs base)) = (some c, true) := by
  obtain ⟨g1, g2, g3, g4, g5⟩ := Get_addPairs_pairs c base hb
  obtain ⟨hu, hr⟩ := h
  have hroles := map_ToInt64_ToString c.RoleIds hr
  simp only [FromMD, g1, g2, g3, g4, g5, ToInt64_ToString c.UserId hu]
  cases c with
  | mk tt ri lt ui rs =>
    cases rs with
    | nil => rfl
    | cons r rest =>
      simp only [List.map_cons, foldl_ToInt64, List.nil_append] at hroles ⊢
      rw [hroles]

/-- C1: carrier round trip. For every token whose numbers are `int64`, the strings
that `Visit` emits are accepted by `metadata.Pairs`, and `FromMD` on the metadata
built from them returns `ok = true` and the same token: the same scalar fields and the
same role ids in the same order, also for an empty role list. -/
theorem FromMD_Pairs_Visit (c : Token) (h : c.isInt64) :
    ∃ md, Pairs (c.Visit collectPairs []) = some md ∧ FromMD (some md) = (some c, true) := by
  refine ⟨addPairs c.pairs [], ?_, ?_⟩
  · simp [Pairs, Visit_collectPairs, toPairs_flattenPairs]
  · refine FromMD_addPairs c h [] ?_
    intro k _
    rfl

/-- C1 at the carrier of the repository's test `TestFromMD`. -/
theorem FromMD_Pairs_Visit_witness :
    (⟨"access", "abcdefgh", "wallet", 1000, [4000, 5000, 6000]⟩ : Token).isInt64 ∧
    ∃ md, Pairs ((⟨"access", "abcdefgh", "wallet", 1000, [4000, 5000, 6000]⟩ : Token).Visit
        collectPairs []) = some md ∧
      FromMD (some md) =
        (some ⟨"access", "abcdefgh", "wallet", 1000, [4000, 5000, 6000]⟩, true) :=
  ⟨by decide, FromMD_Pairs_Visit _ (by decide)⟩

/-- C2 (as stated) fails: a client context whose outgoing metadata already holds a
role id delivers that role id too, so the server-side carrier has the role ids
`[7, 4000]` where the client attached `[4000]`. -/
theorem propagation_counterexample :
    (wrapClientContext
        (WithToken ⟨.absent, none, some [("x-role-id", ["7"])]⟩
          (some ⟨"access", "abcdefgh", "wallet", 1000, [4000]⟩))).map
      (fun ctx => FromContext (wrapServerContext (deliver ctx ⟨.absent, none, none⟩))) =
      some (some ⟨"access", "abcdefgh", "wallet", 1000, [7, 4000]⟩, true) ∧
    (⟨"access", "abcdefgh", "wallet", 1000, [7, 4000]⟩ : Token) ≠
      ⟨"access", "abcdefgh", "wallet", 1000, [4000]⟩ := by
  decide

/-- C2 (amended): end-to-end propagation. For every token with `int64` numbers and
every client context whose outgoing metadata holds no value under the five identity
keys, `wrapClientContext (WithToken ctx c)` completes, and once its outgoing metadata
is delivered as the incoming metadata of any peer context, `FromContext` of
`wrapServerContext` of that context returns `ok = true` and the same token. -/
theorem propagation_end_to_end (c : Token) (ctx peer : Context) (h : c.isInt64)
    (hb : ∀ k ∈ identityKeys, (ctx.outgoing.getD []).Get k = []) :
    ∃ sent, wrapClientContext (WithToken ctx (some c)) = some sent ∧
      FromContext (wrapServerContext (deliver sent peer)) = (some c, true) := by
  refine ⟨{ WithToken ctx (some c) with
            outgoing := some (addPairs c.pairs (ctx.outgoing.getD [])) }, ?_, ?_⟩
  · simp [wrapClientContext, WithToken, AppendToOutgoingContext, Visit_collectPairs,
      toPairs_flattenPairs]
  · have hmd := FromMD_addPairs c h (ctx.outgoing.getD []) hb
    simp only [deliver, NewIncomingContext, wrapServerContext, hmd, FromContext]

/-- C2 (amended) at the carrier of the spec's end-to-end example, sent from a context
that carries an unrelated outgoing header. -/
theorem propagation_end_to_end_witness :
    ∃ sent, wrapClientContext
        (WithToken ⟨.absent, none, some [("x-trace", ["t1"])]⟩
          (some ⟨"access", "abcdefgh", "wallet", 1000, [4000, 5000, 6000]⟩)) = some sent ∧
      FromContext (wrapServerContext (deliver sent ⟨.foreign, none, none⟩)) =
        (some ⟨"access", "abcdefgh", "wallet", 1000, [4000, 5000, 6000]⟩, true) :=
  propagation_end_to_end ⟨"access", "abcdefgh", "wallet", 1000, [4000, 5000, 6000]⟩
    ⟨.absent, none, some [("x-trace", ["t1"])]⟩ ⟨.foreign, none, none⟩
    (by decide) (by decide)

end Jwt

namespace Jwt

open Errcode

/-! ## Token verification errors -/

theorem ParseToken_validationError {P : Type} (lib : Library P) (j : JWT)
    (tokenStr : String) (out : P) (now : Int) (errors : Nat)
    (h : lib.Parse (stripBearer tokenStr) j.c.SecretKey now = .validationError errors) :
    ParseToken lib j tokenStr out now = (some (classifyValidationError errors), out) := by
  simp only [ParseToken, h]

/-- C12 (as stated) fails: a validation error with the malformed flag and one that
is a plain signature failure get the same error, `ErrTokenVerify`, so malformed is not
a kind of its own. -/
theorem classifyValidationError_malformed_counterexample :
    classifyValidationError ValidationErrorMalformed = ErrTokenVerify ∧
    classifyValidationError ValidationErrorSignatureInvalid = ErrTokenVerify := by
  decide

/-- C12 (amended): when verification reports a validation error with the malformed
flag, `ParseToken` fails with `ErrTokenVerify` (code 10003), the error it also returns
for a generic verification failure; every error of `ParseToken` is one of the three
distinct errors `ErrTokenVerify`, `ErrTokenExpire` and `ErrTokenNotValidYet`. -/
theorem ParseToken_malformed {P : Type} (lib : Library P) (j : JWT) (tokenStr : String)
    (out : P) (now : Int) :
    (∀ errors, errors &&& ValidationErrorMalformed ≠ 0 →
      lib.Parse (stripBearer tokenStr) j.c.SecretKey now = .validationError errors →
      ParseToken lib j tokenStr out now = (some ErrTokenVerify, out)) ∧
    (lib.Parse (stripBearer tokenStr) j.c.SecretKey now = .otherError →
      ParseToken lib j tokenStr out now = (some ErrTokenVerify, out)) ∧
    (∀ e, (ParseToken lib j tokenStr out now).1 = some e →
      e = ErrTokenVerify ∨ e = ErrTokenExpire ∨ e = ErrTokenNotValidYet) ∧
    ErrTokenVerify.Code = 10003 ∧
    ErrTokenVerify ≠ ErrTokenExpire ∧ ErrTokenVerify ≠ ErrTokenNotValidYet ∧
    ErrTokenExpire ≠ ErrTokenNotValidYet := by
  refine ⟨?_, ?_, ?_, rfl, by decide, by decide, by decide⟩
  · intro errors hm hp
    rw [ParseToken_validationError lib j tokenStr out now errors hp]
    simp [classifyValidationError, hm]
  · intro hp
    simp only [ParseToken, hp]
  · intro e he
    unfold ParseToken at he
    simp only [] at he
    split at he
    · rename_i errors _
      simp only [Option.some.injEq] at he
      subst he
      unfold classifyValidationError
      split_ifs <;> simp
    · simp only [Option.some.injEq] at he
      exact Or.inl he.symm
    · split at he
      · simp only [Option.some.injEq] at he
        exact Or.inl he.symm
      · split_ifs at he
        · simp only [Option.some.injEq] at he
          exact Or.inl he.symm
        · split at he
          · split at he
            · simp only [Option.some.injEq] at he
              exact Or.inl he.symm
            · split at he
              · simp only [Option.some.injEq] at he
                exact Or.inl he.symm
              · simp at he
          · simp only [Option.some.injEq] at he
            exact Or.inl he.symm

/-- C12 (amended) at a library that reports every token string as malformed. -/
theorem ParseToken_malformed_witness :
    ParseToken (singleTokenLibrary [] "ABCDEFGH" "a.b.c") ⟨⟨"svc", "ABCDEFGH", 1⟩⟩
      "not a token" "" 0 = (some ErrTokenVerify, "") :=
  (ParseToken_malformed (singleTokenLibrary [] "ABCDEFGH" "a.b.c")
    ⟨⟨"svc", "ABCDEFGH", 1⟩⟩ "not a token" "" 0).1 ValidationErrorMalformed
    (by decide) (by decide)

/-- C14 (as stated) fails on the flag set that the releases of golang-jwt v4 which
validate the claims before the signature report for an expired token signed with
another secret, expired together with signature-invalid: `ParseToken` answers
`ErrTokenExpire`; with not-yet-valid in place of expired it answers
`ErrTokenNotValidYet`. -/
theorem classifyValidationError_signature_counterexample :
    classifyValidationError (ValidationErrorExpired ||| ValidationErrorSignatureInvalid) =
      ErrTokenExpire ∧
    classifyValidationError
      (ValidationErrorNotValidYet ||| ValidationErrorSignatureInvalid) =
      ErrTokenNotValidYet ∧
    ErrTokenExpire ≠ ErrTokenVerify ∧ ErrTokenNotValidYet ≠ ErrTokenVerify := by
  decide

/-- C14 (amended): for a validation error whose flag set has the signature-invalid
flag, `ParseToken` returns `ErrTokenVerify` (code 10003) when the set has the
malformed flag or has neither the expired nor the not-yet-valid flag; in particular
when signature-invalid is the only flag, whatever the token's time claims are. -/
theorem ParseToken_signatureInvalid {P : Type} (lib : Library P) (j : JWT)
    (tokenStr : String) (out : P) (now : Int) (errors : Nat)
    (h : lib.Parse (stripBearer tokenStr) j.c.SecretKey now = .validationError errors)
    (_hs : errors &&& ValidationErrorSignatureInvalid ≠ 0)
    (hflags : errors &&& ValidationErrorMalformed ≠ 0 ∨
      (errors &&& ValidationErrorExpired = 0 ∧ errors &&& ValidationErrorNotValidYet = 0)) :
    ParseToken lib j tokenStr out now = (some ErrTokenVerify, out) ∧
    ErrTokenVerify.Code = 10003 := by
  rw [ParseToken_validationError lib j tokenStr out now errors h]
  refine ⟨?_, rfl⟩
  rcases hflags with hm | ⟨he, hn⟩
  · simp [classifyValidationError, hm]
  · simp [classifyValidationError, he, hn]

/-- C14 (amended) at an expired token presented to an issuer with another secret, for
a library that reports the signature failure alone. -/
theorem ParseToken_signatureInvalid_witness :
    ParseToken (singleTokenLibrary [("exp", .num 60)] "ABCDEFGH" "a.b.c")
      ⟨⟨"svc", "OTHERKEY", 1⟩⟩ "a.b.c" "" 100 = (some ErrTokenVerify, "") :=
  (ParseToken_signatureInvalid (singleTokenLibrary [("exp", .num 60)] "ABCDEFGH" "a.b.c")
    ⟨⟨"svc", "OTHERKEY", 1⟩⟩ "a.b.c" "" 100 ValidationErrorSignatureInvalid
    (by decide) (by decide) (Or.inr (by decide))).1

/-! ## Token creation -/

theorem Seconds_pos_iff (d : Int) : Seconds d > 0 ↔ 0 < d := by
  have h := Seconds_le_zero_iff d
  constructor
  · intro hp
    by_contra hc
    have : Seconds d ≤ 0 := h.2 (by omega)
    exact absurd hp (not_lt.2 this)
  · intro hp
    by_contra hc
    have : d ≤ 0 := h.1 (not_lt.1 hc)
    omega

theorem expiry_cons (j : JWT) (d : Int) (more : List Int) :
    expiry j (d :: more) = if 0 < d then d else j.c.ExpirationTime := by
  by_cases h : 0 < d
  · simp [expiry, Seconds_pos_iff, h]
  · simp [expiry, Seconds_pos_iff, h]

theorem NewJWT_ok_pos (c : Option Config) (j : JWT) (h : NewJWT c = .ok j) :
    0 < j.c.ExpirationTime := by
  cases c with
  | none => simp [NewJWT] at h
  | some cfg =>
    unfold NewJWT at h
    simp only [] at h
    split_ifs at h with hbad
    have hj : j.c = cfg := by
      cases h
      rfl
    rw [hj]
    by_contra hc
    exact hbad (Or.inr (Or.inr ((Seconds_le_zero_iff _).2 (by omega))))

theorem expiry_pos (c : Option Config) (j : JWT) (h : NewJWT c = .ok j)
    (expirationTime : List Int) : 0 < expiry j expirationTime := by
  have hpos := NewJWT_ok_pos c j h
  cases expirationTime with
  | nil => simpa [expiry] using hpos
  | cons d more =>
    rw [expiry_cons]
    split_ifs with hd
    · exact hd
    · exact hpos

theorem CreateToken_ok {P : Type} (lib : Library P) (j : JWT) (token : P)
    (expirationTime : List Int) (now : Int) (ts : String)
    (h : CreateToken lib j token expirationTime now = .ok ts) :
    ∃ payload, lib.Marshal token = .ok payload ∧
      lib.SignedString
        (buildClaims j now (expiry j expirationTime) (lib.EncodeToString payload))
        j.c.SecretKey = .ok ts := by
  unfold CreateToken at h
  simp only [] at h
  cases hm : lib.Marshal token with
  | error e => simp [hm] at h
  | ok payload =>
    simp only [hm] at h
    cases hs : lib.SignedString
        (buildClaims j now (expiry j expirationTime) (lib.EncodeToString payload))
        j.c.SecretKey with
    | error e => simp [hs] at h
    | ok ts2 =>
      simp only [hs] at h
      cases h
      exact ⟨payload, rfl, hs⟩

/-- C15 (as stated) fails: an issuer with an expiry of half a second is accepted by
`NewJWT`, and at the clock reading 0 the claims it writes have `iat = 0` and
`exp = 0`, so `iat < exp` does not hold. -/
theorem buildClaims_counterexample :
    NewJWT (some ⟨"svc", "ABCDEFGH", 500000000⟩) = .ok ⟨⟨"svc", "ABCDEFGH", 500000000⟩⟩ ∧
    buildClaims ⟨⟨"svc", "ABCDEFGH", 500000000⟩⟩ 0
      (expiry ⟨⟨"svc", "ABCDEFGH", 500000000⟩⟩ []) "e30=" =
      [("iss", .str "svc"), ("exp", .num 0), ("iat", .num 0), ("nbf", .num 0),
        ("x_user_info", .str "e30=")] := by
  refine ⟨?_, by decide⟩
  have h : ¬ ("svc" = "" ∨ "ABCDEFGH" = "" ∨ Seconds 500000000 ≤ 0) := by
    rw [Seconds_le_zero_iff]
    decide
  simp only [NewJWT, h, if_false]

/-- C15 (amended): claim times. For every issuer accepted by `NewJWT`, every clock
reading and every per-call expiry list, the claims that `CreateToken` signs have
`iat = nbf =` Unix seconds of `now` and `exp =` Unix seconds of `now + et`, where `et`
is the per-call expiry when one is given and positive and the issuer's default
otherwise; `et` is positive, `nbf ≤ iat ≤ exp`, and `iat < exp` when `et` is at least
one second. -/
theorem CreateToken_claim_times {P : Type} (lib : Library P) (c : Option Config) (j : JWT)
    (hj : NewJWT c = .ok j) (token : P) (expirationTime : List Int) (now : Int) :
    (∀ ts, CreateToken lib j token expirationTime now = .ok ts →
      ∃ payload, lib.Marshal token = .ok payload ∧
        lib.SignedString
          (buildClaims j now (expiry j expirationTime) (lib.EncodeToString payload))
          j.c.SecretKey = .ok ts) ∧
    (∀ payload64,
      (buildClaims j now (expiry j expirationTime) payload64).lookup "iat" =
        some (.num (unixSeconds now)) ∧
      (buildClaims j now (expiry j expirationTime) payload64).lookup "nbf" =
        some (.num (unixSeconds now)) ∧
      (buildClaims j now (expiry j expirationTime) payload64).lookup "exp" =
        some (.num (unixSeconds (now + expiry j expirationTime)))) ∧
    (expirationTime = [] → expiry j expirationTime = j.c.ExpirationTime) ∧
    (∀ d more, expirationTime = d :: more → 0 < d → expiry j expirationTime = d) ∧
    (∀ d more, expirationTime = d :: more → d ≤ 0 →
      expiry j expirationTime = j.c.ExpirationTime) ∧
    0 < expiry j expirationTime ∧
    unixSeconds now ≤ unixSeconds (now + expiry j expirationTime) ∧
    (1000000000 ≤ expiry j expirationTime →
      unixSeconds now < unixSeconds (now + expiry j expirationTime)) := by
  have hpos := expiry_pos c j hj expirationTime
  refine ⟨?_, ?_, ?_, ?_, ?_, hpos, ?_, ?_⟩
  · intro ts h
    exact CreateToken_ok lib j token expirationTime now ts h
  · intro payload64
    refine ⟨?_, ?_, ?_⟩ <;> simp [buildClaims, List.lookup]
  · intro h
    subst h
    rfl
  · intro d more h hd
    subst h
    simp [expiry_cons, hd]
  · intro d more h hd
    subst h
    have : ¬ 0 < d := by omega
    simp [expiry_cons, this]
  · unfold unixSeconds
    omega
  · intro h
    unfold unixSeconds
    omega

/-- C15 (amended) at the issuer of the repository's test (72 hours) and a clock
reading of 1600000000.5 s. -/
theorem CreateToken_claim_times_witness :
    unixSeconds 1600000000500000000 <
      unixSeconds (1600000000500000000 +
        expiry ⟨⟨"gate-micro", "ABCDEFGH", 259200000000000⟩⟩ []) :=
  (CreateToken_claim_times (singleTokenLibrary [] "ABCDEFGH" "a.b.c")
    (some ⟨"gate-micro", "ABCDEFGH", 259200000000000⟩)
    ⟨⟨"gate-micro", "ABCDEFGH", 259200000000000⟩⟩
    (by
      have h : ¬ ("gate-micro" = "" ∨ "ABCDEFGH" = "" ∨
          Seconds 259200000000000 ≤ 0) := by
        rw [Seconds_le_zero_iff]
        decide
      simp only [NewJWT, h, if_false])
    "payload" [] 1600000000500000000).2.2.2.2.2.2.2 (by decide)

/-! ## Token round trip -/

theorem startsWith_mem (pat : List Char) :
    ∀ s : List Char, startsWith pat s = true → ∀ x ∈ pat, x ∈ s := by
  induction pat with
  | nil => intro s _ x hx; cases hx
  | cons p ps ih =>
    intro s h x hx
    cases s with
    | nil => simp [startsWith] at h
    | cons c cs =>
      simp only [startsWith, Bool.and_eq_true, beq_iff_eq] at h
      rcases List.mem_cons.1 hx with hxp | hxps
      · rw [hxp, h.1]
        exact List.mem_cons_self _ _
      · exact List.mem_cons_of_mem _ (ih cs h.2 x hxps)

theorem removeFirst_of_not_mem (pat : List Char) (x : Char) (hx : x ∈ pat) :
    ∀ s : List Char, x ∉ s → removeFirst pat s = s := by
  intro s
  induction s with
  | nil => intro _; rfl
  | cons c cs ih =>
    intro hs
    have hno : startsWith pat (c :: cs) = false := by
      cases hsw : startsWith pat (c :: cs) with
      | false => rfl
      | true => exact absurd (startsWith_mem pat (c :: cs) hsw x hx) hs
    have hcs : x ∉ cs := fun hmem => hs (List.mem_cons_of_mem _ hmem)
    simp [removeFirst, hno, ih hcs]

theorem stripBearer_of_no_space (ts : String) (h : ' ' ∉ ts.data) : stripBearer ts = ts := by
  unfold stripBearer
  rw [removeFirst_of_not_mem "Bearer ".data ' ' (by decide) ts.data h]

theorem stripBearer_append (ts : String) : stripBearer ("Bearer " ++ ts) = ts := by
  unfold stripBearer
  have hd : ("Bearer " ++ ts).data = 'B' :: 'e' :: 'a' :: 'r' :: 'e' :: 'r' :: ' ' :: ts.data := by
    rw [String.data_append]
    rfl
  rw [hd]
  have hp : "Bearer ".data = ['B', 'e', 'a', 'r', 'e', 'r', ' '] := rfl
  rw [hp]
  simp [removeFirst, startsWith]

theorem claimsFlags_buildClaims (j : JWT) (now et later : Int) (payload64 : String) :
    claimsFlags (buildClaims j now et payload64) later =
      timeFlags (unixSeconds (now + et)) (unixSeconds now) later := by
  simp [claimsFlags, timeFlags, buildClaims, List.lookup, PrivatePayloadName]

theorem timeFlags_live (exp iat now : Int) (hafter : iat ≤ now) (hlive : now < exp) :
    timeFlags exp iat now = 0 := by
  unfold timeFlags
  by_cases he : exp = 0 <;> by_cases hi : iat = 0 <;> simp [he, hi, hafter, hlive]

theorem timeFlags_expired (exp iat now : Int) (he : exp ≠ 0) (hpast : exp < now) :
    timeFlags exp iat now ≠ 0 ∧
    classifyValidationError (timeFlags exp iat now) = Errcode.ErrTokenExpire := by
  have hnot : ¬ now < exp := by omega
  unfold timeFlags
  by_cases hi : iat = 0
  · simp only [he, hnot, hi, if_true, if_false]
    exact ⟨by decide, by decide⟩
  · by_cases hle : iat ≤ now
    · simp only [he, hnot, hi, hle, if_true, if_false]
      exact ⟨by decide, by decide⟩
    · simp only [he, hnot, hi, hle, if_false]
      exact ⟨by decide, by decide⟩

theorem Library.Lawful.tokenLaws {P : Type} {lib : Library P} (h : lib.Lawful) :
    lib.TokenLaws := h.2

/-- What `ParseToken` does with a token string that `CreateToken` returned, possibly
behind `Bearer `, when the claims do not pass at clock reading `later`: the validation
error of the claims is classified. -/
theorem ParseToken_created_invalid {P : Type} (lib : Library P) (hl : lib.TokenLaws)
    (j : JWT) (p : P) (expirationTime : List Int) (now : Int) (ts : String)
    (hts : CreateToken lib j p expirationTime now = .ok ts)
    (tokenStr : String) (hstrip : stripBearer tokenStr = ts) (out : P) (later : Int)
    (hflags : timeFlags (unixSeconds (now + expiry j expirationTime)) (unixSeconds now)
      later ≠ 0) :
    ParseToken lib j tokenStr out later =
      (some (classifyValidationError
        (timeFlags (unixSeconds (now + expiry j expirationTime)) (unixSeconds now)
          later)), out) := by
  obtain ⟨payload, _, hs⟩ := CreateToken_ok lib j p expirationTime now ts hts
  obtain ⟨_, hparse⟩ := hl.2 _ _ _ hs
  unfold ParseToken
  simp only [hstrip, hparse, verdict, claimsFlags_buildClaims, hflags, if_false]

/-- What `ParseToken` does with a token string that `CreateToken` returned, possibly
behind `Bearer `, when the claims pass at clock reading `later` and `json.Unmarshal`
into `out` reads the payload back. -/
theorem ParseToken_created_valid {P : Type} (lib : Library P) (hl : lib.TokenLaws)
    (j : JWT) (p : P) (expirationTime : List Int) (now : Int) (ts : String)
    (hts : CreateToken lib j p expirationTime now = .ok ts)
    (tokenStr : String) (hstrip : stripBearer tokenStr = ts) (out : P)
    (hjson : ∀ data, lib.Marshal p = .ok data → lib.Unmarshal data out = .ok p)
    (later : Int)
    (hflags : timeFlags (unixSeconds (now + expiry j expirationTime)) (unixSeconds now)
      later = 0) :
    ParseToken lib j tokenStr out later = (none, p) := by
  obtain ⟨payload, hm, hs⟩ := CreateToken_ok lib j p expirationTime now ts hts
  obtain ⟨hb64, hjwt⟩ := hl
  obtain ⟨_, hparse⟩ := hjwt _ _ _ hs
  have hlook : (buildClaims j now (expiry j expirationTime)
      (lib.EncodeToString payload)).lookup PrivatePayloadName =
      some (.str (lib.EncodeToString payload)) := by
    simp [buildClaims, List.lookup, PrivatePayloadName]
  unfold ParseToken
  simp only [hstrip, hparse, verdict, claimsFlags_buildClaims, hflags, if_true, hlook,
    hb64, hjson payload hm, Bool.not_true, Bool.false_eq_true, if_false]

theorem singleTokenLibrary_lawful (claims : MapClaims) (key tokenStr : String)
    (h : ' ' ∉ tokenStr.data) : (singleTokenLibrary claims key tokenStr).Lawful := by
  refine ⟨?_, ?_, ?_⟩
  · intro p data out hm
    simp only [singleTokenLibrary] at hm ⊢
    cases hm
    rfl
  · intro b
    rfl
  · intro c k ts hs
    simp only [singleTokenLibrary] at hs ⊢
    split_ifs at hs with hck
    cases hs
    exact ⟨h, fun now => by simp [hck.1, hck.2]⟩

theorem unexportedFieldLibrary_tokenLaws (claims : MapClaims) (key tokenStr : String)
    (h : ' ' ∉ tokenStr.data) : (unexportedFieldLibrary claims key tokenStr).TokenLaws := by
  refine ⟨?_, ?_⟩
  · intro b
    rfl
  · intro c k ts hs
    simp only [unexportedFieldLibrary] at hs ⊢
    split_ifs at hs with hck
    cases hs
    exact ⟨h, fun now => by simp [hck.1, hck.2]⟩

/-- C11 (as stated) fails. A token issued by an accepted issuer with the 72 hour expiry
when the clock reads 100 s and presented, long before it expires, to a verifier whose clock reads 90 s is
refused with `ErrTokenNotValidYet`; and a payload with an unexported field, which
`json.Marshal` accepts, comes back without that field. Both libraries keep the base64
and JWT laws. -/
theorem CreateToken_ParseToken_counterexample :
    NewJWT (some ⟨"gate-micro", "ABCDEFGH", 259200000000000⟩) =
      .ok ⟨⟨"gate-micro", "ABCDEFGH", 259200000000000⟩⟩ ∧
    (singleTokenLibrary
      (buildClaims ⟨⟨"gate-micro", "ABCDEFGH", 259200000000000⟩⟩ 100000000000
        259200000000000 "payload") "ABCDEFGH" "a.b.c").Lawful ∧
    CreateToken
      (singleTokenLibrary
        (buildClaims ⟨⟨"gate-micro", "ABCDEFGH", 259200000000000⟩⟩ 100000000000
          259200000000000 "payload") "ABCDEFGH" "a.b.c")
      ⟨⟨"gate-micro", "ABCDEFGH", 259200000000000⟩⟩ "payload" [] 100000000000 =
      .ok "a.b.c" ∧
    (90 : Int) < unixSeconds (100000000000 +
      expiry ⟨⟨"gate-micro", "ABCDEFGH", 259200000000000⟩⟩ []) ∧
    ParseToken
      (singleTokenLibrary
        (buildClaims ⟨⟨"gate-micro", "ABCDEFGH", 259200000000000⟩⟩ 100000000000
          259200000000000 "payload") "ABCDEFGH" "a.b.c")
      ⟨⟨"gate-micro", "ABCDEFGH", 259200000000000⟩⟩ "a.b.c" "" 90 =
      (some ErrTokenNotValidYet, "") ∧
    (unexportedFieldLibrary
      (buildClaims ⟨⟨"gate-micro", "ABCDEFGH", 259200000000000⟩⟩ 100000000000
        259200000000000 "alice") "ABCDEFGH" "a.b.c").TokenLaws ∧
    CreateToken
      (unexportedFieldLibrary
        (buildClaims ⟨⟨"gate-micro", "ABCDEFGH", 259200000000000⟩⟩ 100000000000
          259200000000000 "alice") "ABCDEFGH" "a.b.c")
      ⟨⟨"gate-micro", "ABCDEFGH", 259200000000000⟩⟩ ("alice", "memo") [] 100000000000 =
      .ok "a.b.c" ∧
    ParseToken
      (unexportedFieldLibrary
        (buildClaims ⟨⟨"gate-micro", "ABCDEFGH", 259200000000000⟩⟩ 100000000000
          259200000000000 "alice") "ABCDEFGH" "a.b.c")
      ⟨⟨"gate-micro", "ABCDEFGH", 259200000000000⟩⟩ "a.b.c" ("", "") 3700 =
      (none, ("alice", "")) ∧
    (("alice", "") : String × String) ≠ ("alice", "memo") := by
  have hcfg : ¬ ("gate-micro" = "" ∨ "ABCDEFGH" = "" ∨ Seconds 259200000000000 ≤ 0) := by
    rw [Seconds_le_zero_iff]
    decide
  refine ⟨by simp only [NewJWT, hcfg, if_false],
    singleTokenLibrary_lawful _ _ _ (by decide), rfl, by decide, by decide,
    unexportedFieldLibrary_tokenLaws _ _ _ (by decide), rfl, by decide, by decide⟩

/-- C11 (amended): token round trip. With base64 and JWT libraries that keep their
laws, for every issuer, every per-call expiry and every payload that `json.Unmarshal`
into `out` reads back from what `json.Marshal` wrote: if `CreateToken` at clock reading
`now` returns the token string `ts`, then `ParseToken` with the same issuer, at a clock
reading not before the issuing second and before the expiry second, returns no error
and leaves the payload in `out`, for `ts` itself and for `ts` behind the prefix
`Bearer `. -/
theorem CreateToken_ParseToken {P : Type} (lib : Library P) (hl : lib.TokenLaws) (j : JWT)
    (p : P) (expirationTime : List Int) (now : Int) (ts : String)
    (hts : CreateToken lib j p expirationTime now = .ok ts) (out : P)
    (hjson : ∀ data, lib.Marshal p = .ok data → lib.Unmarshal data out = .ok p)
    (later : Int) (hafter : unixSeconds now ≤ later)
    (hlive : later < unixSeconds (now + expiry j expirationTime)) :
    ParseToken lib j ts out later = (none, p) ∧
    ParseToken lib j ("Bearer " ++ ts) out later = (none, p) := by
  obtain ⟨payload, _, hs⟩ := CreateToken_ok lib j p expirationTime now ts hts
  have hsp : ' ' ∉ ts.data := (hl.2 _ _ _ hs).1
  have hflags := timeFlags_live (unixSeconds (now + expiry j expirationTime))
    (unixSeconds now) later hafter hlive
  exact ⟨ParseToken_created_valid lib hl j p expirationTime now ts hts ts
      (stripBearer_of_no_space ts hsp) out hjson later hflags,
    ParseToken_created_valid lib hl j p expirationTime now ts hts ("Bearer " ++ ts)
      (stripBearer_append ts) out hjson later hflags⟩

/-- C11 (amended) at the issuer of the repository's test: the token issued when the
clock reads 100 s with the 72 hour expiry is read back one hour later. -/
theorem CreateToken_ParseToken_witness :
    ParseToken
      (singleTokenLibrary
        (buildClaims ⟨⟨"gate-micro", "ABCDEFGH", 259200000000000⟩⟩ 100000000000
          259200000000000 "payload") "ABCDEFGH" "a.b.c")
      ⟨⟨"gate-micro", "ABCDEFGH", 259200000000000⟩⟩ "a.b.c" "" 3700 = (none, "payload") ∧
    ParseToken
      (singleTokenLibrary
        (buildClaims ⟨⟨"gate-micro", "ABCDEFGH", 259200000000000⟩⟩ 100000000000
          259200000000000 "payload") "ABCDEFGH" "a.b.c")
      ⟨⟨"gate-micro", "ABCDEFGH", 259200000000000⟩⟩ ("Bearer " ++ "a.b.c") "" 3700 =
      (none, "payload") :=
  CreateToken_ParseToken
    (singleTokenLibrary
      (buildClaims ⟨⟨"gate-micro", "ABCDEFGH", 259200000000000⟩⟩ 100000000000
        259200000000000 "payload") "ABCDEFGH" "a.b.c")
    (singleTokenLibrary_lawful _ _ _ (by decide)).tokenLaws
    ⟨⟨"gate-micro", "ABCDEFGH", 259200000000000⟩⟩ "payload" [] 100000000000 "a.b.c"
    rfl "" (fun _ h => by cases h; rfl) 3700 (by decide) (by decide)

/-! ## Carrier serialization and deserialization -/

theorem foldl_recording {σ : Type} (fn : String → String → σ → Bool × σ)
    (ps : List (String × String)) :
    ∀ (s : σ) (log : List (String × String)),
      ps.foldl (fun (st : σ × List (String × String)) p =>
          ((fn p.1 p.2 st.1).2, st.2 ++ [(p.1, p.2)])) (s, log) =
        (ps.foldl (fun s p => (fn p.1 p.2 s).2) s, log ++ ps) := by
  induction ps with
  | nil => intro s log; simp
  | cons p rest ih =>
    intro s log
    simp only [List.foldl_cons, ih]
    simp

theorem Visit_eq_foldl {σ : Type} (c : Token) (fn : String → String → σ → Bool × σ) (s : σ) :
    c.Visit fn s = c.pairs.foldl (fun s p => (fn p.1 p.2 s).2) s := by
  simp [Token.Visit, Token.pairs, List.foldl_append, List.foldl_map]

/-- C16: serialization order. For every token and every callback, `Visit` is the
callback applied in turn, its result ignored, to the pairs (X-Token-Type, TokenType),
(X-Random-Id, RandomId), (X-Login-Type, LoginType), (X-User-Id, decimal UserId) and
then (X-Role-Id, decimal role id) for each role id in order: 4 + n calls, and a
callback that also records its arguments records exactly these pairs. -/
theorem Visit_order (c : Token) :
    (∀ (σ : Type) (fn : String → String → σ → Bool × σ) (s : σ),
      c.Visit fn s = c.pairs.foldl (fun s p => (fn p.1 p.2 s).2) s) ∧
    (∀ (σ : Type) (fn : String → String → σ → Bool × σ) (s : σ),
      c.Visit (fun key val (st : σ × List (String × String)) =>
          ((fn key val st.1).1, ((fn key val st.1).2, st.2 ++ [(key, val)]))) (s, []) =
        (c.Visit fn s, c.pairs)) ∧
    c.pairs.length = 4 + c.RoleIds.length ∧
    c.pairs =
      [("X-Token-Type", c.TokenType), ("X-Random-Id", c.RandomId),
        ("X-Login-Type", c.LoginType), ("X-User-Id", Convert.ToString c.UserId)] ++
      c.RoleIds.map (fun roleId => ("X-Role-Id", Convert.ToString roleId)) := by
  refine ⟨fun σ fn s => Visit_eq_foldl c fn s, ?_, ?_, rfl⟩
  · intro σ fn s
    rw [Visit_eq_foldl, Visit_eq_foldl]
    have := foldl_recording fn c.pairs s []
    simpa using this
  · simp [Token.pairs]
    omega

/-- C17: deserialization. For non-nil metadata `FromMD` returns `ok = true` and the
token whose scalar fields are the first value under their key, or the zero value when
there is none, and whose role ids are all the values under the role-id key,
converted, in order; metadata that agrees on the five identity keys gives the same
token, so a value written under any other key changes nothing. -/
theorem FromMD_fields (md : MD) :
    FromMD (some md) =
      (some { TokenType := (md.Get tokenTypeKey).head?.getD ""
              RandomId := (md.Get randomIdKey).head?.getD ""
              LoginType := (md.Get loginTypeKey).head?.getD ""
              UserId := ((md.Get userIdKey).head?.map Convert.ToInt64).getD 0
              RoleIds := (md.Get roleIdKey).map Convert.ToInt64 }, true) ∧
    (∀ other : MD, (∀ k ∈ identityKeys, other.Get k = md.Get k) →
      FromMD (some other) = FromMD (some md)) ∧
    (∀ (k : String) (vs : List String), (∀ key ∈ identityKeys, stringsToLower key ≠ k) →
      FromMD (some (md.set k vs)) = FromMD (some md)) := by
  have hagree : ∀ other : MD, (∀ k ∈ identityKeys, other.Get k = md.Get k) →
      FromMD (some other) = FromMD (some md) := by
    intro other h
    have h1 := h tokenTypeKey (by simp [identityKeys])
    have h2 := h randomIdKey (by simp [identityKeys])
    have h3 := h loginTypeKey (by simp [identityKeys])
    have h4 := h userIdKey (by simp [identityKeys])
    have h5 := h roleIdKey (by simp [identityKeys])
    simp only [FromMD, h1, h2, h3, h4, h5]
  refine ⟨?_, hagree, ?_⟩
  · simp only [FromMD]
    generalize md.Get tokenTypeKey = l1
    generalize md.Get randomIdKey = l2
    generalize md.Get loginTypeKey = l3
    generalize md.Get userIdKey = l4
    generalize md.Get roleIdKey = l5
    cases l1 <;> cases l2 <;> cases l3 <;> cases l4 <;> cases l5 <;>
      simp [Token.zero, foldl_ToInt64]
  · intro k vs hk
    apply hagree
    intro key hkey
    have hne := hk key hkey
    simp [MD.Get, index_set, hne]

/-- C17 at metadata with two values under the token-type key, three role ids, an
unrelated key and no user id. -/
theorem FromMD_fields_witness :
    FromMD (some (MD.set
      [("x-token-type", ["access", "refresh"]), ("x-role-id", ["4000", "5000", "x"])]
      "x-trace" ["t1"])) =
    FromMD (some
      [("x-token-type", ["access", "refresh"]), ("x-role-id", ["4000", "5000", "x"])]) :=
  (FromMD_fields
    [("x-token-type", ["access", "refresh"]), ("x-role-id", ["4000", "5000", "x"])]).2.2
    "x-trace" ["t1"] (by decide)

/-! ## Anonymous calls -/

/-- C18: anonymous pass-through. A context without incoming metadata is returned by
`wrapServerContext` as it is, so `FromContext` answers the same before and after; a
context in which `FromContext` finds no carrier is returned by `wrapClientContext` as
it is, without a panic, so its outgoing metadata is unchanged. -/
theorem anonymous_passthrough (ctx : Context) :
    (ctx.incoming = none →
      wrapServerContext ctx = ctx ∧
      FromContext (wrapServerContext ctx) = FromContext ctx) ∧
    ((FromContext ctx).2 = false →
      wrapClientContext ctx = some ctx ∧
      ∀ sent, wrapClientContext ctx = some sent → sent.outgoing = ctx.outgoing) := by
  constructor
  · intro h
    have : wrapServerContext ctx = ctx := by simp [wrapServerContext, h]
    exact ⟨this, by rw [this]⟩
  · intro h
    have : wrapClientContext ctx = some ctx := by
      cases ctx with
      | mk tv inc out =>
        cases tv with
        | absent => rfl
        | token p => simp [FromContext] at h
        | foreign => rfl
    refine ⟨this, ?_⟩
    intro sent hs
    rw [this] at hs
    cases hs
    rfl

/-- C18 at a context with outgoing metadata and a value of another type under the
identity key, and at a context without incoming metadata that holds a carrier. -/
theorem anonymous_passthrough_witness :
    wrapClientContext ⟨.foreign, none, some [("x-trace", ["t1"])]⟩ =
      some ⟨.foreign, none, some [("x-trace", ["t1"])]⟩ ∧
    wrapServerContext ⟨.token (some Token.zero), none, none⟩ =
      ⟨.token (some Token.zero), none, none⟩ :=
  ⟨((anonymous_passthrough ⟨.foreign, none, some [("x-trace", ["t1"])]⟩).2 rfl).1,
   ((anonymous_passthrough ⟨.token (some Token.zero), none, none⟩).1 rfl).1⟩

/-! ## Server stream wrapping -/

/-- C19: stream wrapping is idempotent. Wrapping the wrapper that
`newWrappedServerStream` returned gives the same address and allocates nothing; an
already wrapped stream is returned as it is; for an unwrapped stream the new wrapper
holds the stream as its inner stream, its `Context()` is the stream's `Context()`, and
the wrappers allocated before are untouched. -/
theorem newWrappedServerStream_idempotent (h : StreamHeap) (s : ServerStream) :
    newWrappedServerStream (newWrappedServerStream h s).1
        (.wrapper (newWrappedServerStream h s).2) = newWrappedServerStream h s ∧
    (∀ addr, s = .wrapper addr → newWrappedServerStream h s = (h, addr)) ∧
    (∀ id ctx, s = .plain id ctx →
      (newWrappedServerStream h s).1.get? (newWrappedServerStream h s).2 =
        some { ServerStream := s, WrappedContext := ctx } ∧
      (ServerStream.wrapper (newWrappedServerStream h s).2).Context
        (newWrappedServerStream h s).1 = s.Context h ∧
      ∀ addr, addr < h.length → (newWrappedServerStream h s).1.get? addr = h.get? addr) := by
  refine ⟨rfl, ?_, ?_⟩
  · intro addr hs
    subst hs
    rfl
  · intro id ctx hs
    subst hs
    refine ⟨?_, ?_, ?_⟩
    · simp [newWrappedServerStream]
    · simp [newWrappedServerStream, ServerStream.Context]
    · intro addr ha
      simp [newWrappedServerStream, List.getElem?_append_left ha]

/-- C19 at an unwrapped stream on a heap that already holds one wrapper. -/
theorem newWrappedServerStream_idempotent_witness :
    newWrappedServerStream [⟨.plain 7 ⟨.absent, none, none⟩, ⟨.absent, none, none⟩⟩]
      (.wrapper 0) =
      ([⟨.plain 7 ⟨.absent, none, none⟩, ⟨.absent, none, none⟩⟩], 0) ∧
    (ServerStream.wrapper (newWrappedServerStream
        [⟨.plain 7 ⟨.absent, none, none⟩, ⟨.absent, none, none⟩⟩]
        (.plain 8 ⟨.foreign, none, none⟩)).2).Context
      (newWrappedServerStream [⟨.plain 7 ⟨.absent, none, none⟩, ⟨.absent, none, none⟩⟩]
        (.plain 8 ⟨.foreign, none, none⟩)).1 = some ⟨.foreign, none, none⟩ :=
  ⟨(newWrappedServerStream_idempotent
      [⟨.plain 7 ⟨.absent, none, none⟩, ⟨.absent, none, none⟩⟩] (.wrapper 0)).2.1 0 rfl,
   ((newWrappedServerStream_idempotent
      [⟨.plain 7 ⟨.absent, none, none⟩, ⟨.absent, none, none⟩⟩]
      (.plain 8 ⟨.foreign, none, none⟩)).2.2 8 ⟨.foreign, none, none⟩ rfl).2.1⟩

end Jwt

namespace Model

/-! ## Timestamps -/

/-- C20: the defect. For the Unix-second time type `GetTimestamp` takes the default
branch and returns milliseconds: for the instant 1600000000.123456789 s it returns
1600000000123, where the seconds are 1600000000. For the millisecond and nanosecond
types it returns `UnixNano() / 1e6` and `UnixNano()`. -/
theorem GetTimestamp_UnixSecond :
    GetTimestamp 1600000000123456789 UnixSecond = 1600000000123 ∧
    GetTimestamp 1600000000123456789 UnixSecond ≠ 1600000000 ∧
    (∀ t : Int, GetTimestamp t UnixSecond = Int.tdiv t 1000000) ∧
    (∀ t : Int, GetTimestamp t UnixMillisecond = Int.tdiv t 1000000) ∧
    (∀ t : Int, GetTimestamp t UnixNanosecond = t) := by
  refine ⟨by decide, by decide, ?_, ?_, ?_⟩ <;> intro t <;>
    simp [GetTimestamp, UnixSecond, UnixMillisecond, UnixNanosecond, Millisecond]

end Model

namespace Model

/-! ## Update maps -/

theorem lookup_set {V : Type} (m : GoMap V) (k k2 : String) (v : V) :
    (m.set k v).lookup k2 = if k2 = k then some v else m.lookup k2 := by
  unfold GoMap.set
  by_cases h : k2 = k
  · subst h; simp [List.lookup]
  · have hb : (k2 == k) = false := by simpa using h
    simp only [List.lookup, hb, h, if_false]
    induction m with
    | nil => rfl
    | cons p rest ih =>
      by_cases hp : p.1 = k
      · have hk2 : (k2 == p.1) = false := by simpa [hp] using h
        simp [List.filter, hp, List.lookup, hb, ih]
      · have hpb : (p.1 == k) = false := by simpa using hp
        simp only [List.filter, hpb, Bool.not_false, List.lookup]
        cases hk : (k2 == p.1) <;> simp [ih]

theorem has_set {V : Type} (m : GoMap V) (k k2 : String) (v : V) :
    (m.set k v).has k2 = (decide (k2 = k) || m.has k2) := by
  unfold GoMap.has
  rw [lookup_set]
  by_cases h : k2 = k <;> simp [h]

theorem has_foldl_count (ss : List String) (k : String) :
    ∀ m : GoMap Nat,
      (ss.foldl (fun m s => m.set s ((m.lookup s).getD 0 + 1)) m).has k = true ↔
        m.has k = true ∨ k ∈ ss := by
  induction ss with
  | nil => intro m; simp
  | cons s rest ih =>
    intro m
    rw [List.foldl_cons, ih, has_set]
    by_cases h : k = s
    · simp [h]
    · have h2 : ¬ s = k := fun e => h e.symm
      simp [h, h2]

/-- A key is in the count map exactly when the string is in the slice. -/
theorem has_CountString (ss : List String) (k : String) :
    (CountString ss).has k = true ↔ k ∈ ss := by
  unfold CountString
  rw [has_foldl_count]
  simp [GoMap.has]

theorem updateStep_eq (now : Int) (omits notIgnores : List String) (um : GoMap Value)
    (f : Field) :
    updateStep now (CountString omits) (CountString notIgnores) um f =
      if specIncluded omits notIgnores f then
        um.set f.DBName (writtenValue now notIgnores f)
      else um := by
  have ho := has_CountString omits f.DBName
  have hn := has_CountString notIgnores f.DBName
  unfold updateStep specIncluded writtenValue
  by_cases h1 : f.DBName ∈ omits
  · have : (CountString omits).has f.DBName = true := ho.2 h1
    simp [this, h1]
  · have h1b : (CountString omits).has f.DBName = false := by
      cases hb : (CountString omits).has f.DBName with
      | false => rfl
      | true => exact absurd (ho.1 hb) h1
    by_cases h2 : f.DBName ∈ notIgnores
    · have : (CountString notIgnores).has f.DBName = true := hn.2 h2
      simp [h1b, h1, this, h2]
    · have h2b : (CountString notIgnores).has f.DBName = false := by
        cases hb : (CountString notIgnores).has f.DBName with
        | false => rfl
        | true => exact absurd (hn.1 hb) h2
      by_cases h3 : f.PrimaryKey = false ∧ f.AutoCreateTime = 0 ∧ f.zero = false
      · obtain ⟨ha, hb, hc⟩ := h3
        simp [h1b, h1, h2b, h2, ha, hb, hc]
      · by_cases h4 : f.AutoUpdateTime > 0
        · have hc : (!f.PrimaryKey && f.AutoCreateTime == 0 && !f.zero) = false := by
            cases hpk : f.PrimaryKey <;> cases hz : f.zero <;>
              by_cases hct : f.AutoCreateTime = 0 <;> simp_all
          simp [h1b, h1, h2b, h2, h3, h4, hc]
        · have hc : (!f.PrimaryKey && f.AutoCreateTime == 0 && !f.zero) = false := by
            cases hpk : f.PrimaryKey <;> cases hz : f.zero <;>
              by_cases hct : f.AutoCreateTime = 0 <;> simp_all
          simp [h1b, h1, h2b, h2, h3, h4, hc]

theorem foldl_updateStep_has (now : Int) (omits notIgnores : List String)
    (fields : List Field) (k : String) :
    ∀ um : GoMap Value,
      (fields.foldl (updateStep now (CountString omits) (CountString notIgnores)) um).has k
          = true ↔
        um.has k = true ∨ ∃ f ∈ fields, f.DBName = k ∧ specIncluded omits notIgnores f := by
  induction fields with
  | nil => intro um; simp
  | cons f rest ih =>
    intro um
    rw [List.foldl_cons, ih, updateStep_eq]
    by_cases hinc : specIncluded omits notIgnores f
    · simp only [hinc, if_true, has_set, Bool.or_eq_true, decide_eq_true_eq,
        List.mem_cons, exists_eq_or_imp, and_true]
      constructor
      · rintro ((h | h) | h)
        · exact Or.inr (Or.inl h.symm)
        · exact Or.inl h
        · exact Or.inr (Or.inr h)
      · rintro (h | h | h)
        · exact Or.inl (Or.inr h)
        · exact Or.inl (Or.inl h.symm)
        · exact Or.inr h
    · simp only [hinc, if_false, List.mem_cons, exists_eq_or_imp, and_false, false_or]

theorem foldl_updateStep_untouched (now : Int) (omits notIgnores : List String)
    (fields : List Field) (k : String) (hk : k ∉ fields.map Field.DBName) :
    ∀ um : GoMap Value,
      (fields.foldl (updateStep now (CountString omits) (CountString notIgnores)) um).lookup k
        = um.lookup k := by
  induction fields with
  | nil => intro um; rfl
  | cons f rest ih =>
    intro um
    have hne : k ≠ f.DBName := fun e => hk (by simp [e])
    have hrest : k ∉ rest.map Field.DBName := fun h => hk (by simp at h ⊢; exact Or.inr h)
    rw [List.foldl_cons, ih hrest, updateStep_eq]
    split_ifs
    · rw [lookup_set]
      simp [hne]
    · rfl

theorem foldl_updateStep_lookup (now : Int) (omits notIgnores : List String)
    (fields : List Field) (hnd : (fields.map Field.DBName).Nodup) (f : Field)
    (hf : f ∈ fields) :
    ∀ um : GoMap Value,
      (fields.foldl (updateStep now (CountString omits) (CountString notIgnores)) um).lookup
          f.DBName =
        if specIncluded omits notIgnores f then some (writtenValue now notIgnores f)
        else um.lookup f.DBName := by
  induction fields with
  | nil => cases hf
  | cons g rest ih =>
    intro um
    rw [List.map_cons, List.nodup_cons] at hnd
    rw [List.foldl_cons]
    rcases List.mem_cons.1 hf with hfg | hfr
    · subst hfg
      rw [foldl_updateStep_untouched now omits notIgnores rest f.DBName hnd.1, updateStep_eq]
      split_ifs
      · rw [lookup_set]
        simp
      · rfl
    · have hne : f.DBName ≠ g.DBName := by
        intro e
        exact hnd.1 (by rw [← e]; exact List.mem_map_of_mem _ hfr)
      rw [ih hnd.2 hfr, updateStep_eq]
      by_cases hf2 : specIncluded omits notIgnores f
      · simp only [hf2, if_true]
      · simp only [hf2, if_false]
        by_cases hg : specIncluded omits notIgnores g
        · simp only [hg, if_true, lookup_set, hne, if_false]
        · simp only [hg, if_false]

theorem writtenValue_field (now : Int) (notIgnores : List String) (f : Field)
    (h : f.DBName ∈ notIgnores ∨
      (f.PrimaryKey = false ∧ f.AutoCreateTime = 0 ∧ f.zero = false)) :
    writtenValue now notIgnores f = f.value := by
  simp only [writtenValue, h, if_true]

theorem writtenValue_millisecond (now : Int) (notIgnores : List String) (f : Field)
    (h : ¬ (f.DBName ∈ notIgnores ∨
      (f.PrimaryKey = false ∧ f.AutoCreateTime = 0 ∧ f.zero = false)))
    (htt : f.AutoUpdateTime = UnixMillisecond) (hnow : 0 ≤ now) :
    writtenValue now notIgnores f = .int (now / 1000000) := by
  simp only [writtenValue, h, if_false, htt, GetTimestamp, if_true, Millisecond]
  rw [Int.tdiv_eq_ediv hnow (by decide)]

theorem writtenValue_nanosecond (now : Int) (notIgnores : List String) (f : Field)
    (h : ¬ (f.DBName ∈ notIgnores ∨
      (f.PrimaryKey = false ∧ f.AutoCreateTime = 0 ∧ f.zero = false)))
    (htt : f.AutoUpdateTime = UnixNanosecond) :
    writtenValue now notIgnores f = .int now := by
  have hne : ¬ (UnixNanosecond = UnixMillisecond) := by decide
  simp only [writtenValue, h, if_false, htt, GetTimestamp, hne, if_true]

end Model

namespace Jwt

/-! ## Identity from metadata, and nil carriers -/

theorem FromMD_some_ok (md : MD) : ∃ t, FromMD (some md) = (some t, true) :=
  ⟨_, rfl⟩

theorem FromMD_no_identity_keys (md : MD) (h : ∀ k ∈ identityKeys, md.Get k = []) :
    FromMD (some md) = (some Token.zero, true) := by
  have h1 := h tokenTypeKey (by simp [identityKeys])
  have h2 := h randomIdKey (by simp [identityKeys])
  have h3 := h loginTypeKey (by simp [identityKeys])
  have h4 := h userIdKey (by simp [identityKeys])
  have h5 := h roleIdKey (by simp [identityKeys])
  simp only [FromMD, h1, h2, h3, h4, h5]

theorem wrapServerContext_incoming (ctx : Context) (md : MD) (h : ctx.incoming = some md) :
    FromContext (wrapServerContext ctx) = FromMD (some md) := by
  obtain ⟨t, ht⟩ := FromMD_some_ok md
  simp only [wrapServerContext, h, ht, FromContext]

/-- C22: incoming metadata alone establishes an identity. For every non-nil metadata
`FromMD` returns `ok = true` with a carrier, the all-zero carrier when no identity key
has a value (the empty metadata included); so for a server context with incoming
metadata `FromContext` after `wrapServerContext` returns `ok = true` and that carrier;
and `FromMD` returns `(nil, false)` exactly for nil metadata. -/
theorem FromMD_metadata_identity :
    (∀ md : MD, ∃ t, FromMD (some md) = (some t, true)) ∧
    FromMD (some []) = (some Token.zero, true) ∧
    (∀ md : MD, (∀ k ∈ identityKeys, md.Get k = []) →
      FromMD (some md) = (some Token.zero, true)) ∧
    (∀ (ctx : Context) (md : MD), ctx.incoming = some md →
      FromContext (wrapServerContext ctx) = FromMD (some md) ∧
      (FromContext (wrapServerContext ctx)).2 = true) ∧
    (∀ (ctx : Context) (md : MD), ctx.incoming = some md →
      (∀ k ∈ identityKeys, md.Get k = []) →
      FromContext (wrapServerContext ctx) = (some Token.zero, true)) ∧
    (∀ m : Option MD, FromMD m = (none, false) ↔ m = none) := by
  refine ⟨FromMD_some_ok, rfl, FromMD_no_identity_keys, ?_, ?_, ?_⟩
  · intro ctx md h
    have hw := wrapServerContext_incoming ctx md h
    obtain ⟨t, ht⟩ := FromMD_some_ok md
    exact ⟨hw, by rw [hw, ht]⟩
  · intro ctx md h hk
    rw [wrapServerContext_incoming ctx md h, FromMD_no_identity_keys md hk]
  · intro m
    cases m with
    | none => simp [FromMD]
    | some md =>
      obtain ⟨t, ht⟩ := FromMD_some_ok md
      simp [ht]

/-- C22 at a server context whose incoming metadata holds only an unrelated header. -/
theorem FromMD_metadata_identity_witness :
    FromContext (wrapServerContext ⟨.absent, some [("user-agent", ["grpc-go"])], none⟩) =
      (some Token.zero, true) :=
  FromMD_metadata_identity.2.2.2.2.1 ⟨.absent, some [("user-agent", ["grpc-go"])], none⟩
    [("user-agent", ["grpc-go"])] rfl (by decide)

/-- C23: the defect. `WithToken` with the nil reference stores a `*Token` that is nil:
`FromContext` then returns the nil carrier with `ok = true`, and `wrapClientContext`
passes the same test and panics on the nil dereference in `Visit`. With a non-nil
reference both calls are sound. -/
theorem WithToken_nil (ctx : Context) :
    FromContext (WithToken ctx none) = (none, true) ∧
    wrapClientContext (WithToken ctx none) = none ∧
    FromContext (WithToken ⟨.absent, none, none⟩ none) = (none, true) ∧
    wrapClientContext (WithToken ⟨.absent, none, none⟩ none) = none ∧
    (∀ t : Token, FromContext (WithToken ctx (some t)) = (some t, true) ∧
      ∃ sent, wrapClientContext (WithToken ctx (some t)) = some sent) := by
  refine ⟨rfl, rfl, rfl, rfl, ?_⟩
  intro t
  refine ⟨rfl, ?_⟩
  simp [wrapClientContext, WithToken, AppendToOutgoingContext, Visit_collectPairs,
    toPairs_flattenPairs]

end Jwt
